import Mathlib

/-!
Verification development for the `resinker` event-stream simulator.

The definitions below are a shallow embedding of the Python sources:

* `src/resinker/core/state_manager.py` — `Entity`, `StateManager`, the
  selection-filter operators;
* `src/resinker/generators/generators.py` — the schema-driven value
  generators;
* `src/resinker/core/orchestrator.py` — event generation and the main
  simulation loop.

Python values are modelled by the inductive type `Value`; Python dicts are
association lists in insertion order (which is exactly the iteration order
Python guarantees); Python floats are modelled as rationals; datetimes are
rationals (seconds since the epoch).  Fallible Python code (code that can
raise) returns `Except String _`.  The process-wide `random` generator and
the seeded fake-data provider are modelled as explicit linear-congruential
streams threaded through the functions that draw from them; `uuid.uuid4`,
which in CPython reads `os.urandom` and is unaffected by `random.seed`, is
modelled as drawing from a separate operating-system entropy stream.
-/

namespace Resinker

/-- The Python value domain used by payloads, entity `data` and `state`
maps, and filter constants.  `vBool` is kept separate from `vInt` even
though `isinstance(True, int)` holds in Python; the numeric coercions
below account for that. -/
inductive Value where
  | vNull : Value
  | vBool : Bool → Value
  | vInt : Int → Value
  | vFloat : ℚ → Value
  | vStr : String → Value
  | vList : List Value → Value
  | vDict : List (String × Value) → Value
  deriving Repr

/-- Numeric view: `isinstance(x, (int, float))` in Python, which includes
booleans. -/
def Value.toRat? : Value → Option ℚ
  | .vBool b => some (if b then 1 else 0)
  | .vInt n => some (n : ℚ)
  | .vFloat q => some q
  | _ => none

/-- `isinstance(x, (int, float))` (booleans included, as in Python). -/
def Value.isNumeric (v : Value) : Bool := v.toRat?.isSome

/-- Integer view: Python `int` (booleans included). -/
def Value.toInt? : Value → Option Int
  | .vBool b => some (if b then 1 else 0)
  | .vInt n => some n
  | _ => none

/-- Python `+` restricted to numbers: `int + int` is an `int`, any float
operand makes the result a float.  Callers guard with `isNumeric`; the
`vNull` fallback is unreachable under that guard. -/
def numAdd (a b : Value) : Value :=
  match a.toInt?, b.toInt? with
  | some x, some y => .vInt (x + y)
  | _, _ =>
    match a.toRat?, b.toRat? with
    | some x, some y => .vFloat (x + y)
    | _, _ => .vNull

mutual

/-- Python `==` on the value domain: numbers compare across `bool`, `int`
and `float`; different non-numeric types are unequal (no exception).
Dict equality is compared in iteration order, which agrees with Python
whenever the two dicts list their keys in the same order — the case for
every dict built by this program. -/
def pyEq : Value → Value → Bool
  | .vNull, .vNull => true
  | .vStr a, .vStr b => a == b
  | .vList a, .vList b => pyEqList a b
  | .vDict a, .vDict b => pyEqDict a b
  | a, b =>
    match a.toRat?, b.toRat? with
    | some x, some y => x == y
    | _, _ => false

def pyEqList : List Value → List Value → Bool
  | [], [] => true
  | x :: xs, y :: ys => pyEq x y && pyEqList xs ys
  | _, _ => false

def pyEqDict : List (String × Value) → List (String × Value) → Bool
  | [], [] => true
  | (k, v) :: xs, (k', v') :: ys => k == k' && pyEq v v' && pyEqDict xs ys
  | _, _ => false

end

/-- Total order used for rationals (Python numeric comparison). -/
def cmpRat (x y : ℚ) : Ordering :=
  if x < y then .lt else if x = y then .eq else .gt

mutual

/-- Python ordering comparison (`<`, `>`, `<=`, `>=`).  Numbers compare
numerically, strings by code point, lists lexicographically; every other
combination — in particular any comparison against `None` — raises
`TypeError`. -/
def pyCompare : Value → Value → Except String Ordering
  | .vStr a, .vStr b => .ok (compare a b)
  | .vList a, .vList b => pyCompareList a b
  | a, b =>
    match a.toRat?, b.toRat? with
    | some x, some y => .ok (cmpRat x y)
    | _, _ => .error "TypeError: unsupported comparison"

/-- Python list comparison: skip `==`-equal prefixes, then order by the
first unequal pair (raising if that pair is incomparable). -/
def pyCompareList : List Value → List Value → Except String Ordering
  | [], [] => .ok .eq
  | [], _ :: _ => .ok .lt
  | _ :: _, [] => .ok .gt
  | x :: xs, y :: ys =>
    if pyEq x y then pyCompareList xs ys
    else pyCompare x y

end

/-- `hasattr(x, "__contains__")` on the value domain: strings, lists and
dicts support membership, nothing else does. -/
def hasContainsAttr : Value → Bool
  | .vStr _ => true
  | .vList _ => true
  | .vDict _ => true
  | _ => false

/-- Python `b in a`: substring test for strings (the needle must be a
string), `==`-membership for lists, key membership for dicts
(unhashable keys raise). -/
def pyContains : Value → Value → Except String Bool
  | .vStr s, .vStr t => .ok (decide (List.IsInfix t.toList s.toList))
  | .vStr _, _ => .error "TypeError: in <string> requires string as left operand"
  | .vList xs, b => .ok (xs.any (fun x => pyEq x b))
  | .vDict m, .vStr k => .ok (m.any (fun p => p.1 == k))
  | .vDict _, .vList _ => .error "TypeError: unhashable type"
  | .vDict _, .vDict _ => .error "TypeError: unhashable type"
  | .vDict _, _ => .ok false
  | _, _ => .error "TypeError: argument is not a container"

/-- The operator names of the `OPERATORS` table,
`state_manager.py` lines 14–25, in table order. -/
def operatorNames : List String :=
  ["equals", "not_equals", "greater_than", "less_than", "greater_equals",
   "less_equals", "contains", "not_contains", "in", "not_in"]

/-- Apply one entry of the `OPERATORS` table to
`(actual_value, filter_value)`.  The `contains` family guards with
`hasattr(_, "__contains__")` exactly as the lambdas in the source do;
an operator name outside the table raises
`ValueError("Unsupported operator: ...")`. -/
def applyOp (op : String) (a b : Value) : Except String Bool :=
  if op == "equals" then .ok (pyEq a b)
  else if op == "not_equals" then .ok (!pyEq a b)
  else if op == "greater_than" then
    match pyCompare a b with
    | .error e => .error e
    | .ok o => .ok (o == .gt)
  else if op == "less_than" then
    match pyCompare a b with
    | .error e => .error e
    | .ok o => .ok (o == .lt)
  else if op == "greater_equals" then
    match pyCompare a b with
    | .error e => .error e
    | .ok o => .ok (o != .lt)
  else if op == "less_equals" then
    match pyCompare a b with
    | .error e => .error e
    | .ok o => .ok (o != .gt)
  else if op == "contains" then
    if hasContainsAttr a then pyContains a b else .ok false
  else if op == "not_contains" then
    if hasContainsAttr a then
      match pyContains a b with
      | .error e => .error e
      | .ok r => .ok (!r)
    else .ok true
  else if op == "in" then
    if hasContainsAttr b then pyContains b a else .ok false
  else if op == "not_in" then
    if hasContainsAttr b then
      match pyContains b a with
      | .error e => .error e
      | .ok r => .ok (!r)
    else .ok true
  else .error ("Unsupported operator: " ++ op)

/-- Replace the binding of `k` if present (keeping its position), else
append — Python `d[k] = v` on an insertion-ordered dict. -/
def alistPut {α : Type} : List (String × α) → String → α → List (String × α)
  | [], k, v => [(k, v)]
  | (k', v') :: rest, k, v =>
    if k' == k then (k', v) :: rest else (k', v') :: alistPut rest k v

/-- One selection-filter predicate (`SelectionFilter` in the loader). -/
structure Filter where
  field : String
  op : String
  value : Value
  deriving Repr

/-- An entity instance (`state_manager.py`, class `Entity`).  `created_at`
(a wall-clock read never consulted again) is omitted.  `id` is
`data.get(primary_key, str(uuid.uuid4()))`; the fresh-uuid fallback is
supplied by the caller. -/
structure Entity where
  entityType : String
  data : List (String × Value)
  state : List (String × Value)
  primaryKey : String
  id : Value
  deriving Repr

/-- `Entity.set_state`. -/
def Entity.setState (e : Entity) (k : String) (v : Value) : Entity :=
  { e with state := alistPut e.state k v }

/-- `Entity.get_state` with default `None`. -/
def Entity.getState (e : Entity) (k : String) : Value :=
  (e.state.lookup k).getD .vNull

/-- `Entity.increment_state`, lines 51–59: read the current value with
default `0`, require both operands numeric, else raise `ValueError`. -/
def Entity.incrementState (e : Entity) (k : String) (v : Value) : Except String Entity :=
  let current := (e.state.lookup k).getD (.vInt 0)
  if current.isNumeric && v.isNumeric then
    .ok { e with state := alistPut e.state k (numAdd current v) }
  else
    .error ("Cannot increment non-numeric state " ++ k)

/-- Python `s.startswith(pre)`, computed over the character lists. -/
def strStartsWith (s pre : String) : Bool :=
  pre.data.isPrefixOf s.data

/-- `list-of-chars` split on a separator character (no collapsing of
empty parts), the semantics of Python `str.split(sep)`. -/
def splitCharAux (c : Char) : List Char → List (List Char)
  | [] => [[]]
  | ch :: rest =>
    let r := splitCharAux c rest
    if ch = c then [] :: r
    else
      match r with
      | h :: t => (ch :: h) :: t
      | [] => [[ch]]

/-- Python `s.split(".")` (used for every dotted path in the source). -/
def splitDots (s : String) : List String :=
  (splitCharAux '.' s.data).map (fun l => String.mk l)

/-- Dotted-path navigation used by `matches_filter` (lines 73–84):
descend through dicts, any missing segment or non-dict intermediate
yields `None`. -/
def getNested : Value → List String → Value
  | obj, [] => obj
  | .vDict m, p :: rest =>
    match m.lookup p with
    | some v => getNested v rest
    | none => .vNull
  | _, _ :: _ => .vNull

/-- Resolve a filter field against an entity: a `state.` prefix reads the
state map (via `get_state`, defaulting to `None`), anything else walks
`data` by dotted path. -/
def Entity.fieldValue (e : Entity) (field : String) : Value :=
  if strStartsWith field "state." then e.getState (field.drop 6)
  else getNested (.vDict e.data) (splitDots field)

/-- `Entity.matches_filter`, lines 61–94: conjunction over the filter
list, evaluated left to right; an operator failure (unknown name or a
`TypeError` from a comparison) propagates as an exception. -/
def Entity.matchesFilter (e : Entity) : List Filter → Except String Bool
  | [] => .ok true
  | f :: rest =>
    match applyOp f.op (e.fieldValue f.field) f.value with
    | .error msg => .error msg
    | .ok true => e.matchesFilter rest
    | .ok false => .ok false

/-- The entity registry: entity type → entities in insertion order
(Python's `Dict[str, Dict[str, Entity]]`; the inner dict's values are
iterated in insertion order). -/
structure StateManager where
  entities : List (String × List Entity)
  deriving Repr

/-- The empty state manager. -/
def StateManager.empty : StateManager := ⟨[]⟩

/-- Update the entity list of one type in place. -/
def alistUpdateEntities (m : List (String × List Entity)) (k : String)
    (f : List Entity → List Entity) : List (String × List Entity) :=
  match m with
  | [] => []
  | (k', es) :: rest =>
    if k' == k then (k', f es) :: rest else (k', es) :: alistUpdateEntities rest k f

/-- Replace the entity whose id `==` the given id (dict assignment to an
existing key keeps the position). -/
def replaceEntity (es : List Entity) (id : Value) (e' : Entity) : List Entity :=
  match es with
  | [] => []
  | e :: rest => if pyEq e.id id then e' :: rest else e :: replaceEntity rest id e'

/-- `self.entities[entity_type][entity.id] = entity`: overwrite when the
id is already bound, else append. -/
def upsertEntity (es : List Entity) (e : Entity) : List Entity :=
  if es.any (fun x => pyEq x.id e.id) then replaceEntity es e.id e else es ++ [e]

/-- `StateManager.get_entity`. -/
def StateManager.getEntity (sm : StateManager) (etype : String) (id : Value) : Option Entity :=
  match sm.entities.lookup etype with
  | none => none
  | some es => es.find? (fun e => pyEq e.id id)

/-- `StateManager.create_entity` (with `register_entity_type` inlined).
`freshId` stands for the `str(uuid.uuid4())` fallback drawn by the
entity constructor when `data` lacks the primary key. -/
def StateManager.createEntity (sm : StateManager) (etype : String)
    (data : List (String × Value)) (pk : String) (freshId : Value) :
    StateManager × Entity :=
  let entities0 :=
    if (sm.entities.lookup etype).isSome then sm.entities else sm.entities ++ [(etype, [])]
  let e : Entity :=
    { entityType := etype, data := data, state := [], primaryKey := pk,
      id := (data.lookup pk).getD freshId }
  (⟨alistUpdateEntities entities0 etype (fun es => upsertEntity es e)⟩, e)

/-- `StateManager.update_entity` (shallow-merge into `data`); returns the
updated entity, or `None` when it is not found. -/
def StateManager.updateEntityData (sm : StateManager) (etype : String) (id : Value)
    (delta : List (String × Value)) : StateManager × Option Entity :=
  match sm.getEntity etype id with
  | none => (sm, none)
  | some e =>
    let e' := { e with data := delta.foldl (fun d kv => alistPut d kv.1 kv.2) e.data }
    (⟨alistUpdateEntities sm.entities etype (fun es => replaceEntity es id e')⟩, some e')

/-- The `set_attributes` loop of `update_entity_state`: apply every set in
order (Python mutates the entity as it goes). -/
def applySets (e : Entity) (sets : List (String × Value)) : Entity :=
  sets.foldl (fun acc kv => acc.setState kv.1 kv.2) e

/-- The `increment_attributes` loop: increments are applied one by one;
the first failing increment raises, leaving the already-applied
mutations in place (the returned entity is the state at the moment of
the raise). -/
def applyIncrements (e : Entity) : List (String × Value) → Entity × Option String
  | [] => (e, none)
  | (k, v) :: rest =>
    match e.incrementState k v with
    | .ok e' => applyIncrements e' rest
    | .error msg => (e, some msg)

/-- Result of `update_entity_state`: the store after the call (reflecting
every mutation performed before a possible raise), the raised message if
any, and the Python return value. -/
structure UpdateStateResult where
  store : StateManager
  error : Option String
  returned : Option Entity
  deriving Repr

/-- `StateManager.update_entity_state`, lines 146–175: missing entity
returns `None` quietly; otherwise all sets are applied, then increments
until the first failure; because the entity object is mutated in place,
the store keeps the partially-updated entity when an increment raises. -/
def StateManager.updateEntityState (sm : StateManager) (etype : String) (id : Value)
    (sets incs : List (String × Value)) : UpdateStateResult :=
  match sm.getEntity etype id with
  | none => ⟨sm, none, none⟩
  | some e =>
    let e1 := applySets e sets
    let (e2, err) := applyIncrements e1 incs
    { store := ⟨alistUpdateEntities sm.entities etype (fun es => replaceEntity es id e2)⟩,
      error := err,
      returned := if err.isSome then none else some e2 }

/-- The scan of `find_entities` (lines 183–200): collect matches in
iteration order, stopping once `limit` is reached; filter exceptions
propagate. -/
def findAux : List Entity → List Filter → Option Nat → Except String (List Entity)
  | [], _, _ => .ok []
  | e :: rest, fs, lim =>
    match e.matchesFilter fs with
    | .error msg => .error msg
    | .ok false => findAux rest fs lim
    | .ok true =>
      match lim with
      | none =>
        match findAux rest fs none with
        | .error msg => .error msg
        | .ok tail => .ok (e :: tail)
      | some l =>
        if l ≤ 1 then .ok [e]
        else
          match findAux rest fs (some (l - 1)) with
          | .error msg => .error msg
          | .ok tail => .ok (e :: tail)

/-- `StateManager.find_entities`. -/
def StateManager.findEntities (sm : StateManager) (etype : String)
    (fs : List Filter) (lim : Option Nat) : Except String (List Entity) :=
  match sm.entities.lookup etype with
  | none => .ok []
  | some es => findAux es fs lim

/-- `StateManager.count_entities` (lines 202–212); the callers in the
orchestrator always pass a (possibly empty) filter list, never `None`. -/
def StateManager.countEntities (sm : StateManager) (etype : String)
    (fs : Option (List Filter)) : Except String Nat :=
  match sm.entities.lookup etype with
  | none => .ok 0
  | some es =>
    match fs with
    | none => .ok es.length
    | some fl =>
      match findAux es fl none with
      | .error msg => .error msg
      | .ok r => .ok r.length

/-- `StateManager.get_all_entities`. -/
def StateManager.getAllEntities (sm : StateManager) (etype : String) : List Entity :=
  (sm.entities.lookup etype).getD []

/-! ## Randomness

The process-wide `random` module generator and the seeded fake-data
provider are deterministic pseudo-random streams once seeded; they are
modelled as explicit linear-congruential states.  The exact numeric
stream is irrelevant to every claim — what matters is that the stream is
a deterministic function of the seed and that every draw advances it. -/

/-- A seeded pseudo-random stream (model of a `random.Random` state). -/
structure Lcg where
  state : Nat
  deriving Repr

/-- Advance the stream, producing a raw draw. -/
def Lcg.next (r : Lcg) : Nat × Lcg :=
  let s := (r.state * 1103515245 + 12345) % 2147483648
  (s, ⟨s⟩)

/-- `random.random()`: a rational in `[0, 1)`. -/
def Lcg.unit (r : Lcg) : ℚ × Lcg :=
  let (n, r') := r.next
  (((n % 1000000 : Nat) : ℚ) / 1000000, r')

/-- `random.uniform(a, b)`. -/
def Lcg.uniform (r : Lcg) (a b : ℚ) : ℚ × Lcg :=
  let (u, r') := r.unit
  (a + (b - a) * u, r')

/-- `random.randint(a, b)` (both ends inclusive); an empty range raises
`ValueError` as in Python. -/
def Lcg.randInt (r : Lcg) (a b : Int) : Except String (Int × Lcg) :=
  if b < a then .error "ValueError: empty range for randrange"
  else
    let (n, r') := r.next
    .ok (a + (n : Int) % (b - a + 1), r')

/-- `random.choice(items)`. -/
def Lcg.choice {α : Type} (r : Lcg) (items : List α) : Except String (α × Lcg) :=
  match items with
  | [] => .error "IndexError: cannot choose from an empty sequence"
  | x :: xs =>
    let (n, r') := r.next
    .ok ((x :: xs).getD (n % (xs.length + 1)) x, r')

/-- First index whose cumulative weight exceeds the draw (the bisection
inside `random.choices`). -/
def weightedIndex : List ℚ → ℚ → Nat
  | [], _ => 0
  | w :: ws, x => if x < w then 0 else 1 + weightedIndex ws (x - w)

/-- `random.choices(items, weights=ws, k=1)[0]`: raises when the list
lengths differ or the total weight is not positive, as `random.choices`
does. -/
def Lcg.weightedChoice {α : Type} (r : Lcg) (items : List α) (ws : List ℚ) :
    Except String (α × Lcg) :=
  if items.length ≠ ws.length then
    .error "ValueError: The number of weights does not match the population"
  else
    let total := ws.foldl (· + ·) 0
    if total ≤ 0 then .error "ValueError: Total of weights must be greater than zero"
    else
      let (u, r') := r.unit
      match items.get? (weightedIndex ws (u * total)) with
      | some a => .ok (a, r')
      | none => .error "IndexError: bisect out of range"

/-- The operating-system entropy source.  CPython's `uuid.uuid4()` reads
`os.urandom(16)`; it is *not* part of the `random` module's stream and is
unaffected by `random.seed`.  It is modelled as a separate stream of
draws supplied by the environment. -/
structure OsEntropy where
  stream : List Nat
  deriving Repr

/-- Draw from the operating-system entropy source. -/
def OsEntropy.next (o : OsEntropy) : Nat × OsEntropy :=
  match o.stream with
  | [] => (0, ⟨[]⟩)
  | n :: rest => (n, ⟨rest⟩)

/-- `str(uuid.uuid4())`, rendered injectively from the entropy draw. -/
def uuid4 (o : OsEntropy) : String × OsEntropy :=
  let (n, o') := o.next
  ("uuid-" ++ toString n, o')

/-- The seeded fake-data provider (the external `Faker` instance with the
e-commerce provider registered).  The spec treats fake-value functions as
opaque named functions; they are modelled as a deterministic function of
the provider's own seeded stream, producing distinguishable strings. -/
structure FakerState where
  rng : Lcg
  deriving Repr

/-- Method names resolvable on the faker instance in this deployment
(standard methods actually referenced plus the e-commerce provider's). -/
def fakerKnownMethods : List String :=
  ["word", "name", "first_name", "last_name", "email", "user_name", "address",
   "phone_number", "company", "sentence", "text", "url", "ipv4",
   "product_name", "product_category", "product_description", "price",
   "sku", "shipping_method", "payment_method", "currency_code", "order_status"]

/-- Call one fake-value function: unknown names raise, known names draw
from the provider's stream. -/
def fakerCall (fs : FakerState) (method : String) : Except String (Value × FakerState) :=
  if method ∈ fakerKnownMethods then
    let (n, r') := fs.rng.next
    .ok (.vStr (method ++ "-" ++ toString n), ⟨r'⟩)
  else .error ("Unknown Faker method: " ++ method)

/-- `FakerGenerator.generate` (`generators.py` lines 253–300): strip the
`faker.` prefix; a one-part name is called directly; for a two-part name
the method part is tried directly on the instance, then the full dotted
name through `format` — both unknown raises `ValueError`. -/
def fakerGenerate (fs : FakerState) (generatorType : String) :
    Except String (Value × FakerState) :=
  if !(strStartsWith generatorType "faker.") then
    .error ("Invalid Faker generator: " ++ generatorType)
  else
    let providerMethod := generatorType.drop 6
    match splitDots providerMethod with
    | [m] => fakerCall fs m
    | _ :: m :: _ =>
      if m ∈ fakerKnownMethods then fakerCall fs m
      else if providerMethod ∈ fakerKnownMethods then fakerCall fs providerMethod
      else .error ("Unknown Faker provider or method: " ++ providerMethod)
    | [] => .error ("Unknown Faker provider or method: " ++ providerMethod)

/-! ## Schemas

A Python schema is a dict; the keys the program reads are modelled as
optional fields (`none` = key absent).  The `value` field exists because
`Orchestrator._generate_event` *writes* a `"value"` key into property
schemas when merging `payload_overrides`; no reader of schemas ever
consults it. -/

/-- A schema dict.  Field order:
`type, $ref, properties, items, min_items, max_items, generator, format,
params, nullable_probability, from_entity, field, value`. -/
inductive Schema where
  | mk (stype : Option String)
       (ref : Option String)
       (properties : Option (List (String × Schema)))
       (items : Option Schema)
       (minItems : Option Nat)
       (maxItems : Option Nat)
       (generator : Option String)
       (format : Option String)
       (params : Option (List (String × Value)))
       (nullableProb : Option ℚ)
       (fromEntity : Option String)
       (field : Option String)
       (value : Option Value) : Schema
  deriving Repr

def Schema.stype : Schema → Option String
  | .mk t _ _ _ _ _ _ _ _ _ _ _ _ => t

def Schema.ref : Schema → Option String
  | .mk _ r _ _ _ _ _ _ _ _ _ _ _ => r

def Schema.properties : Schema → Option (List (String × Schema))
  | .mk _ _ p _ _ _ _ _ _ _ _ _ _ => p

def Schema.items : Schema → Option Schema
  | .mk _ _ _ i _ _ _ _ _ _ _ _ _ => i

def Schema.minItems : Schema → Option Nat
  | .mk _ _ _ _ mn _ _ _ _ _ _ _ _ => mn

def Schema.maxItems : Schema → Option Nat
  | .mk _ _ _ _ _ mx _ _ _ _ _ _ _ => mx

def Schema.generator : Schema → Option String
  | .mk _ _ _ _ _ _ g _ _ _ _ _ _ => g

def Schema.format : Schema → Option String
  | .mk _ _ _ _ _ _ _ f _ _ _ _ _ => f

def Schema.params : Schema → Option (List (String × Value))
  | .mk _ _ _ _ _ _ _ _ pa _ _ _ _ => pa

def Schema.nullableProb : Schema → Option ℚ
  | .mk _ _ _ _ _ _ _ _ _ np _ _ _ => np

def Schema.fromEntity : Schema → Option String
  | .mk _ _ _ _ _ _ _ _ _ _ fe _ _ => fe

def Schema.fieldPath : Schema → Option String
  | .mk _ _ _ _ _ _ _ _ _ _ _ fd _ => fd

def Schema.value : Schema → Option Value
  | .mk _ _ _ _ _ _ _ _ _ _ _ _ v => v

/-- `schema["value"] = v` — the dict write performed by the orchestrator's
override merge. -/
def Schema.withValue : Schema → Value → Schema
  | .mk t r p i mn mx g f pa np fe fd _, v => .mk t r p i mn mx g f pa np fe fd (some v)

/-- Key overlay used by `$ref` merging: take the overriding dict's key
when present. -/
def oMerge {α : Type} (over base : Option α) : Option α :=
  match over with
  | some x => some x
  | none => base

/-- `$ref` merging (`generators.py` lines 424–437): shallow-copy the
referenced schema, then overwrite every key of the referencing object
except `$ref` itself (so the result keeps the referenced schema's own
`$ref` key, if any). -/
def Schema.mergeRef (referenced referencing : Schema) : Schema :=
  match referenced, referencing with
  | .mk t r p i mn mx g f pa np fe fd v, .mk t' _ p' i' mn' mx' g' f' pa' np' fe' fd' v' =>
    .mk (oMerge t' t) r (oMerge p' p) (oMerge i' i) (oMerge mn' mn) (oMerge mx' mx)
       (oMerge g' g) (oMerge f' f) (oMerge pa' pa) (oMerge np' np) (oMerge fe' fe)
       (oMerge fd' fd) (oMerge v' v)

/-- The empty dict `{}` as a schema. -/
def emptySchema : Schema :=
  .mk none none none none none none none none none none none none none

/-! ## Generation context -/

/-- A context entry.  The context dict mixes payload values with richer
objects: the simulation datetime, entities bound by consumption, the
consumed-entities map, scenario bookkeeping. -/
inductive CtxVal where
  | val : Value → CtxVal
  | time : ℚ → CtxVal
  | ent : Entity → CtxVal
  | ents : List Entity → CtxVal
  | overrides : List (String × Value) → CtxVal
  | consumed : List (String × List Entity) → CtxVal
  | scenarioRef : Nat → CtxVal
  | entMap : List (String × Entity) → CtxVal
  deriving Repr

/-- The generation context (a Python dict in insertion order). -/
abbrev Ctx := List (String × CtxVal)

/-- Mutable state threaded through generation: the `random` module
stream, the faker instance's stream, the OS entropy source and the wall
clock (only read by code paths that fall back to `datetime.now()`). -/
structure GenState where
  rng : Lcg
  faker : FakerState
  os : OsEntropy
  wallClock : ℚ
  deriving Repr

/-- `datetime.isoformat()`, modelled as an injective rendering of the
rational timestamp. -/
def isoFormat (t : ℚ) : String := "iso8601(" ++ toString t ++ ")"

/-- `datetime.date().isoformat()` (wall-clock fallback only). -/
def isoDate (t : ℚ) : String := "date(" ++ toString t ++ ")"

/-- `datetime.time().isoformat()` (wall-clock fallback only). -/
def isoTime (t : ℚ) : String := "time(" ++ toString t ++ ")"

/-- Python `str()` on the value domain; the container cases are only
reachable for string-typed schemas whose leaf returns a container, which
no claim exercises, so their exact rendering is left schematic. -/
def pyStr : Value → String
  | .vNull => "None"
  | .vBool b => if b then "True" else "False"
  | .vInt n => toString n
  | .vFloat q => toString q
  | .vStr s => s
  | .vList _ => "<list>"
  | .vDict _ => "<dict>"

/-- `params.get(k)` against an optional params dict. -/
def paramsGet (params : Option (List (String × Value))) (k : String) : Option Value :=
  (params.getD []).lookup k

/-- Round to `p` decimal digits (Python `round`; the half-way tie rule
differs from banker's rounding only at exact ties, which no claim
exercises). -/
def roundPrec (q : ℚ) (p : Nat) : ℚ :=
  ((round (q * (10 ^ p : ℕ)) : ℤ) : ℚ) / (10 ^ p : ℕ)

/-! ## Leaf generators (`generators.py`) -/

/-- `string.ascii_letters + string.digits`, the alphabet of
`random_alphanumeric`. -/
def alphanumericChars : List Char :=
  "abcdefghijklmnopqrstuvwxyzABCDEFGHIJKLMNOPQRSTUVWXYZ0123456789".toList

/-- Draw `n` characters, one stream draw per character
(`random.choice(chars) for _ in range(length)`). -/
def randChars (rng : Lcg) : Nat → List Char × Lcg
  | 0 => ([], rng)
  | n + 1 =>
    let (k, rng') := rng.next
    let c := alphanumericChars.getD (k % alphanumericChars.length) 'a'
    let (cs, rng'') := randChars rng' n
    (c :: cs, rng'')

/-- A random alphanumeric string of length `n`. -/
def randAlphanumeric (rng : Lcg) (n : Nat) : String × Lcg :=
  let (cs, rng') := randChars rng n
  (String.mk cs, rng')

/-- `ChoiceGenerator.generate` (lines 73–90): empty choices raise; a
present *truthy* weights list must match the choices in length; an
empty weights list is falsy and falls back to uniform choice. -/
def choiceGenerate (rng : Lcg) (schema : Schema) : Except String (Value × Lcg) :=
  let choices := match paramsGet schema.params "choices" with | some (.vList xs) => xs | _ => []
  let weights := match paramsGet schema.params "weights" with | some (.vList ws) => some ws | _ => none
  if choices.isEmpty then .error "No choices provided for choice generator"
  else
    match weights with
    | some (w :: ws) =>
      if (w :: ws).length ≠ choices.length then
        .error "Number of weights must match number of choices"
      else rng.weightedChoice choices ((w :: ws).map (fun x => x.toRat?.getD 0))
    | _ => rng.choice choices

/-- `ConditionalChoiceGenerator._choose_from_case` (lines 158–171). -/
def chooseFromCase (rng : Lcg) (c : List (String × Value)) : Except String (Value × Lcg) :=
  let choices := match c.lookup "choices" with | some (.vList xs) => xs | _ => []
  let weights := match c.lookup "weights" with | some (.vList ws) => some ws | _ => none
  if choices.isEmpty then .error "No choices provided in case definition"
  else
    match weights with
    | some (w :: ws) =>
      if (w :: ws).length ≠ choices.length then
        .error "Number of weights must match number of choices"
      else rng.weightedChoice choices ((w :: ws).map (fun x => x.toRat?.getD 0))
    | _ => rng.choice choices

/-- The four per-case condition checks of
`ConditionalChoiceGenerator.generate` (lines 121–143), in source
order; ordering and membership checks can raise `TypeError`. -/
def condCaseMatches (v : Value) (cd : List (String × Value)) : Except String Bool := do
  if (match cd.lookup "condition_value" with | some cv => pyEq cv v | none => false) then
    return true
  match cd.lookup "condition_value_greater_than" with
  | some x =>
    let o ← pyCompare v x
    if o == .gt then return true
  | none => pure ()
  match cd.lookup "condition_value_less_than" with
  | some x =>
    let o ← pyCompare v x
    if o == .lt then return true
  | none => pure ()
  match cd.lookup "condition_value_in" with
  | some x =>
    let b ← pyContains x v
    if b then return true
  | none => pure ()
  return false

/-- Scan the cases in order and choose from the first match. -/
def condCases (rng : Lcg) (v : Value) : List Value → Except String (Option (Value × Lcg))
  | [] => .ok none
  | c :: rest =>
    let cd := match c with | .vDict m => m | _ => []
    match condCaseMatches v cd with
    | .error e => .error e
    | .ok true => (chooseFromCase rng cd).map some
    | .ok false => condCases rng v rest

/-- Choose from the first case carrying a `default` key. -/
def condDefault (rng : Lcg) : List Value → Except String (Option (Value × Lcg))
  | [] => .ok none
  | c :: rest =>
    let cd := match c with | .vDict m => m | _ => []
    if (cd.lookup "default").isSome then (chooseFromCase rng cd).map some
    else condDefault rng rest

/-- `ConditionalChoiceGenerator.generate` (lines 93–156).  A context
entry that is not a plain payload value never serves as a condition
field in this program, so non-value entries are treated as absent. -/
def conditionalChoiceGenerate (rng : Lcg) (schema : Schema) (ctx : Ctx) :
    Except String (Value × Lcg) :=
  let conditionField :=
    match paramsGet schema.params "condition_field" with | some (.vStr s) => s | _ => ""
  let cases := match paramsGet schema.params "cases" with | some (.vList cs) => cs | _ => []
  let conditionValue : Option Value :=
    match List.lookup conditionField ctx with
    | some (.val .vNull) => none
    | some (.val v) => some v
    | _ => none
  match conditionValue with
  | none =>
    match condDefault rng cases with
    | .error e => .error e
    | .ok (some r) => .ok r
    | .ok none =>
      match cases with
      | c :: _ => chooseFromCase rng (match c with | .vDict m => m | _ => [])
      | [] =>
        .error ("Condition field " ++ conditionField ++
          " not found in context and no default case provided")
  | some v =>
    match condCases rng v cases with
    | .error e => .error e
    | .ok (some r) => .ok r
    | .ok none =>
      match condDefault rng cases with
      | .error e => .error e
      | .ok (some r) => .ok r
      | .ok none =>
        match cases with
        | c :: _ => chooseFromCase rng (match c with | .vDict m => m | _ => [])
        | [] => .error ("No matching case found for condition " ++ conditionField)

/-- `CurrentTimestampGenerator.generate` (lines 174–195): read the
simulation datetime from the context (wall clock when absent), format
per `schema.format`.  `int()` truncation and `floor` agree on the
non-negative timestamps in use. -/
def currentTimestampGenerate (schema : Schema) (ctx : Ctx) (wallClock : ℚ) : Value :=
  let t : ℚ :=
    match List.lookup "simulation_time" ctx with
    | some (.time t) => t
    | _ => wallClock
  match schema.format.getD "iso8601" with
  | "iso8601" => .vStr (isoFormat t)
  | "unix" => .vInt t.floor
  | "unix_ms" => .vInt (t * 1000).floor
  | _ => .vStr (isoFormat t)

/-- `StaticHashedGenerator._simple_hash`: a 22-character digest (the
digest function itself is implementation-defined per the spec and is
modelled injectively). -/
def simpleHash (s : String) : String := ("md5-" ++ s).take 22

/-- Decode a raw params dict into the schema view — the
`raw_value_source` of `static_hashed` is a plain dict handed to a leaf
`generate`, which reads only leaf fields. -/
def valueToSchema (v : Value) : Schema :=
  match v with
  | .vDict m =>
    .mk (match m.lookup "type" with | some (.vStr s) => some s | _ => none)
       (match m.lookup "$ref" with | some (.vStr s) => some s | _ => none)
       none none none none
       (match m.lookup "generator" with | some (.vStr s) => some s | _ => none)
       (match m.lookup "format" with | some (.vStr s) => some s | _ => none)
       (match m.lookup "params" with | some (.vDict p) => some p | _ => none)
       ((m.lookup "nullable_probability").bind Value.toRat?)
       (match m.lookup "from_entity" with | some (.vStr s) => some s | _ => none)
       (match m.lookup "field" with | some (.vStr s) => some s | _ => none)
       none
  | _ => emptySchema

/-- `DerivedGenerator.generate` (lines 303–340).  The source evaluates
`params.expression` with the host `eval` over a restricted environment,
which does not shallow-embed.  Modelled from the spec (§4.B `derived`
and the §9 design note calling for a mini-evaluator over context
variables): the variable-lookup core with `params.precision` rounding;
arithmetic and the `sum` helper are exercised by no claim and any other
expression fails like an eval error. -/
def derivedGenerate (schema : Schema) (ctx : Ctx) (st : GenState) :
    Except String (Value × GenState) :=
  match paramsGet schema.params "expression" with
  | some (.vStr expr) =>
    if expr == "" then .error "No expression provided for derived generator"
    else
      match List.lookup expr ctx with
      | some (.val v) =>
        match (paramsGet schema.params "precision").bind Value.toInt? with
        | some p =>
          match v with
          | .vFloat q => .ok (.vFloat (roundPrec q p.toNat), st)
          | _ => .ok (v, st)
        | none => .ok (v, st)
      | _ => .error ("Error evaluating expression " ++ expr)
  | _ => .error "No expression provided for derived generator"

/-- Scan of `consumed_entities` inside `FromEntityGenerator.generate`
(lines 366–379): first entry whose alias matches or whose first
entity has the wanted type; the bound entity is the first of the list. -/
def firstConsumed (fe : String) : List (String × List Entity) → Option (Except String Entity)
  | [] => none
  | (al, es) :: rest =>
    if al == fe || (match es with | e :: _ => e.entityType == fe | [] => false) then
      some (match es with
        | e :: _ => .ok e
        | [] => .error "IndexError: list index out of range")
    else firstConsumed fe rest

/-- `FromEntityGenerator.generate` (lines 343–403): resolve an entity
from `entity_<type>` in the context, else from `consumed_entities`,
else a random entity of the type from the store, else raise; then
navigate the dotted field through its `data` (missing segments yield
null).  A non-entity, non-null context binding raises when its `data`
attribute is read. -/
def fromEntityGenerate (sm : StateManager) (schema : Schema) (ctx : Ctx) (rng : Lcg) :
    Except String (Value × Lcg) :=
  match schema.fromEntity, schema.fieldPath with
  | some fe, some fd =>
    if fe == "" || fd == "" then
      .error "FromEntityGenerator requires from_entity and field parameters"
    else
      let nav := fun (e : Entity) => getNested (.vDict e.data) (splitDots fd)
      match List.lookup ("entity_" ++ fe) ctx with
      | some (.ent e) => .ok (nav e, rng)
      | some (.val .vNull) => fromEntityFallback sm fe nav rng (match List.lookup "consumed_entities" ctx with | some (.consumed m) => m | _ => [])
      | some _ => .error "AttributeError: object has no attribute data"
      | none => fromEntityFallback sm fe nav rng (match List.lookup "consumed_entities" ctx with | some (.consumed m) => m | _ => [])
  | _, _ => .error "FromEntityGenerator requires from_entity and field parameters"
where
  /-- The consumed-entities scan and the random-store fallback. -/
  fromEntityFallback (sm : StateManager) (fe : String) (nav : Entity → Value) (rng : Lcg)
      (consumedMap : List (String × List Entity)) : Except String (Value × Lcg) :=
    match firstConsumed fe consumedMap with
    | some (.error e) => .error e
    | some (.ok ent) => .ok (nav ent, rng)
    | none =>
      match sm.getAllEntities fe with
      | [] => .error ("No entity found for " ++ fe)
      | es =>
        match rng.choice es with
        | .error e => .error e
        | .ok (ent, rng') => .ok (nav ent, rng')

/-- `generator_factory` dispatch plus the per-leaf `generate` bodies.
The fuel bounds the nesting of `static_hashed` raw-value sources (the
only self-recursive leaf); Python would recurse unboundedly there. -/
def genLeaf (sm : StateManager) : Nat → String → Schema → Ctx → GenState →
    Except String (Value × GenState)
  | 0, _, _, _, _ => .error "RecursionError: maximum recursion depth exceeded"
  | fuel + 1, gtype, schema, ctx, st =>
    if gtype == "uuid_v4" then
      let (s, os') := uuid4 st.os
      .ok (.vStr s, { st with os := os' })
    else if gtype == "random_int" then
      let lo := ((paramsGet schema.params "min").bind Value.toInt?).getD 0
      let hi := ((paramsGet schema.params "max").bind Value.toInt?).getD 100
      match st.rng.randInt lo hi with
      | .error e => .error e
      | .ok (n, rng') => .ok (.vInt n, { st with rng := rng' })
    else if gtype == "random_float" then
      let lo := ((paramsGet schema.params "min").bind Value.toRat?).getD 0
      let hi := ((paramsGet schema.params "max").bind Value.toRat?).getD 1
      let prec := ((paramsGet schema.params "precision").bind Value.toInt?).getD 2
      let (x, rng') := st.rng.uniform lo hi
      .ok (.vFloat (roundPrec x prec.toNat), { st with rng := rng' })
    else if gtype == "random_alphanumeric" then
      let len := (((paramsGet schema.params "length").bind Value.toInt?).getD 10).toNat
      let (s, rng') := randAlphanumeric st.rng len
      .ok (.vStr s, { st with rng := rng' })
    else if gtype == "choice" then
      match choiceGenerate st.rng schema with
      | .error e => .error e
      | .ok (v, rng') => .ok (v, { st with rng := rng' })
    else if gtype == "conditional_choice" then
      match conditionalChoiceGenerate st.rng schema ctx with
      | .error e => .error e
      | .ok (v, rng') => .ok (v, { st with rng := rng' })
    else if gtype == "current_timestamp" then
      .ok (currentTimestampGenerate schema ctx st.wallClock, st)
    else if gtype == "static_hashed" then
      let algorithm :=
        match paramsGet schema.params "algorithm" with | some (.vStr s) => s | _ => "bcrypt"
      let rawRes : Except String (String × GenState) :=
        match paramsGet schema.params "raw_value_source" with
        | some (.vDict (kv :: kvs)) =>
          let srcSchema := valueToSchema (.vDict (kv :: kvs))
          match srcSchema.generator with
          | some g =>
            if g == "" then
              let (s, rng') := randAlphanumeric st.rng 12
              .ok (s, { st with rng := rng' })
            else
              match genLeaf sm fuel g srcSchema [] st with
              | .error e => .error e
              | .ok (.vStr s, st') => .ok (s, st')
              | .ok _ => .error "AttributeError: object has no attribute encode"
          | none =>
            let (s, rng') := randAlphanumeric st.rng 12
            .ok (s, { st with rng := rng' })
        | _ =>
          let (s, rng') := randAlphanumeric st.rng 12
          .ok (s, { st with rng := rng' })
      match rawRes with
      | .error e => .error e
      | .ok (raw, st') =>
        if algorithm == "bcrypt" then .ok (.vStr ("$2a$10$" ++ simpleHash raw), st')
        else if algorithm == "sha256" then .ok (.vStr ("sha256-" ++ raw), st')
        else if algorithm == "md5" then .ok (.vStr ("md5full-" ++ raw), st')
        else .ok (.vStr (simpleHash raw), st')
    else if gtype == "derived" then
      derivedGenerate schema ctx st
    else if gtype == "from_entity" then
      match fromEntityGenerate sm schema ctx st.rng with
      | .error e => .error e
      | .ok (v, rng') => .ok (v, { st with rng := rng' })
    else if strStartsWith gtype "faker." then
      match fakerGenerate st.faker gtype with
      | .error e => .error e
      | .ok (v, fk') => .ok (v, { st with faker := fk' })
    else .error ("Unknown generator type: " ++ gtype)

/-! ## `SchemaGenerator.generate` (lines 418–602)

The fuel bounds the recursion depth; the Python recursion is genuinely
unbounded on cyclic `$ref` chains, which the fuel turns into an error. -/

/-- `_generate_object` (lines 467–486) parameterised by the recursive
generator: generate each property in declaration order, inserting each
value into the result and into the child context under the property
name. -/
def genPropsWith (gen : Schema → Ctx → GenState → Except String (Value × GenState)) :
    List (String × Schema) → Ctx → List (String × Value) → GenState →
    Except String (List (String × Value) × GenState)
  | [], _, acc, st => .ok (acc, st)
  | (name, psch) :: rest, ctx, acc, st =>
    match gen psch ctx st with
    | .error e => .error e
    | .ok (v, st') =>
      genPropsWith gen rest (alistPut ctx name (.val v)) (alistPut acc name v) st'

/-- `_generate_array` (lines 488–509) parameterised by the recursive
generator: generate `n` items, each under a child context carrying
`array_index`. -/
def genItemsWith (gen : Schema → Ctx → GenState → Except String (Value × GenState))
    (isch : Schema) (ctx : Ctx) :
    Nat → Nat → GenState → Except String (List Value × GenState)
  | 0, _, st => .ok ([], st)
  | n + 1, i, st =>
    match gen isch (alistPut ctx "array_index" (.val (.vInt i))) st with
    | .error e => .error e
    | .ok (v, st') =>
      match genItemsWith gen isch ctx n (i + 1) st' with
      | .error e => .error e
      | .ok (xs, st'') => .ok (v :: xs, st'')

/-- `SchemaGenerator.generate`: resolve `$ref` (falling through when the
reference does not carry the registry prefix), draw nullability (the
stream is consulted only when the probability is positive, matching the
short-circuit in the source), delegate `from_entity`, then dispatch on
the schema type, `string` by default. -/
def genValue (sm : StateManager) (registry : List (String × Schema)) :
    Nat → Schema → Ctx → GenState → Except String (Value × GenState)
  | 0, _, _, _ => .error "RecursionError: maximum recursion depth exceeded"
  | fuel + 1, schema, ctx, st =>
    let refName : Option String :=
      match schema.ref with
      | some r => if strStartsWith r "#/schemas/" then some (r.drop 10) else none
      | none => none
    match refName with
    | some name =>
      match registry.lookup name with
      | none => .error ("Schema not found: " ++ name)
      | some referenced => genValue sm registry fuel (Schema.mergeRef referenced schema) ctx st
    | none =>
      let np := schema.nullableProb.getD 0
      let (isNull, st1) :=
        if np > 0 then
          let (u, rng') := st.rng.unit
          (u < np, { st with rng := rng' })
        else (false, st)
      if isNull then .ok (.vNull, st1)
      else if schema.fromEntity.isSome then
        genLeaf sm (fuel + 1) "from_entity" schema ctx st1
      else
        match schema.stype.getD "string" with
        | "object" =>
          match genPropsWith (genValue sm registry fuel) (schema.properties.getD []) ctx [] st1 with
          | .error e => .error e
          | .ok (props, st') => .ok (.vDict props, st')
        | "array" =>
          let isch := (schema.items).getD emptySchema
          let mn := schema.minItems.getD 0
          let mx := schema.maxItems.getD (mn + 5)
          match st1.rng.randInt (mn : Int) (mx : Int) with
          | .error e => .error e
          | .ok (n, rng') =>
            match genItemsWith (genValue sm registry fuel) isch ctx n.toNat 0
                { st1 with rng := rng' } with
            | .error e => .error e
            | .ok (xs, st') => .ok (.vList xs, st')
        | "string" =>
          match schema.generator with
          | some g =>
            match genLeaf sm (fuel + 1) g schema ctx st1 with
            | .error e => .error e
            | .ok (v, st') => .ok (.vStr (pyStr v), st')
          | none =>
            match schema.format with
            | some "iso8601" => .ok (.vStr (isoFormat st1.wallClock), st1)
            | some "date" => .ok (.vStr (isoDate st1.wallClock), st1)
            | some "time" => .ok (.vStr (isoTime st1.wallClock), st1)
            | _ =>
              match fakerCall st1.faker "word" with
              | .error e => .error e
              | .ok (v, fk') => .ok (.vStr (pyStr v), { st1 with faker := fk' })
        | "number" =>
          match schema.generator with
          | some g => genLeaf sm (fuel + 1) g schema ctx st1
          | none =>
            let (x, rng') := st1.rng.uniform 0 100
            .ok (.vFloat x, { st1 with rng := rng' })
        | "integer" =>
          match schema.generator with
          | some g => genLeaf sm (fuel + 1) g schema ctx st1
          | none =>
            match st1.rng.randInt 0 100 with
            | .error e => .error e
            | .ok (n, rng') => .ok (.vInt n, { st1 with rng := rng' })
        | "boolean" =>
          match schema.generator with
          | some g => genLeaf sm (fuel + 1) g schema ctx st1
          | none =>
            match st1.rng.choice [true, false] with
            | .error e => .error e
            | .ok (b, rng') => .ok (.vBool b, { st1 with rng := rng' })
        | t => .error ("Unsupported schema type: " ++ t)

/-- Recursion bound handed to the schema generator: a stand-in for the
host recursion limit.  Any bound deeper than the schemas at hand leaves
generation unaffected; a cyclic `$ref` chain exhausts it, as it would
blow the recursion limit in the source. -/
def genFuel : Nat := 1000

/-! ## Orchestrator data (`orchestrator.py`, with the raw config dicts
read by it modelled as records carrying the source defaults) -/

/-- One `consumes_entities` entry: `name`, `alias` (here `al`),
`selection_filter` (default `[]`), `min_required` (default 1). -/
structure Consumption where
  name : String
  al : String
  selectionFilter : List Filter
  minRequired : Nat
  deriving Repr

/-- A literal attribute value or a `{from_payload_field: path}` marker. -/
inductive AttrSource where
  | lit : Value → AttrSource
  | fromPayloadField : String → AttrSource
  deriving Repr

/-- One `updates_entity_state` entry. -/
structure StateUpdateDef where
  entityAlias : String
  setAttributes : List (String × AttrSource)
  incrementAttributes : List (String × AttrSource)
  deriving Repr

/-- An event-type definition as read by the orchestrator
(`update_existing_probability` defaults to 0.5, `frequency_weight`
to 1.0). -/
structure EventDef where
  payloadSchema : String
  producesEntity : Option String
  producesOrUpdatesEntity : Option String
  updateExistingProbability : ℚ
  consumesEntities : List Consumption
  updatesEntityState : List StateUpdateDef
  frequencyWeight : ℚ
  deriving Repr

/-- One `state_attributes` entry of an entity definition.  `from_field`
is consulted with Python truthiness: an empty string behaves like an
absent key. -/
structure StateAttrDef where
  fromField : Option String
  default : Option Value
  deriving Repr

/-- An entity definition: schema reference, primary key, state
attributes. -/
structure EntityDef where
  schemaRef : String
  primaryKey : String
  stateAttributes : List (String × StateAttrDef)
  deriving Repr

/-- One scenario step: event type plus optional payload overrides. -/
structure ScenarioStepDef where
  eventType : String
  payloadOverrides : Option (List (String × Value))
  deriving Repr

/-- One `requires_initial_entities` entry. -/
structure ScenarioRequirement where
  name : String
  al : String
  selectionFilter : List Filter
  deriving Repr

/-- A scenario definition; `steps = none` models a dict without a
`steps` key. -/
structure ScenarioDef where
  initiationWeight : ℚ
  requiresInitialEntities : List ScenarioRequirement
  steps : Option (List ScenarioStepDef)
  deriving Repr

/-- A queued event (`ScheduledEvent`): ordered in the priority queue
solely by `scheduled_time` (`__lt__`, lines 53–55). -/
structure ScheduledEvent where
  eventType : String
  scheduledTime : ℚ
  context : Ctx
  deriving Repr

/-- An emitted event. -/
structure EventRec where
  eventType : String
  payload : Value
  timestamp : ℚ
  deriving Repr

/-- A running scenario instance. -/
structure ScenarioInstance where
  scenarioName : String
  context : Ctx
  currentStep : Nat
  completed : Bool
  entityAliases : List (String × Value)
  deriving Repr

/-- The configuration slice the orchestrator reads. -/
structure OrchConfig where
  schemas : List (String × Schema)
  entities : List (String × EntityDef)
  eventTypes : List (String × EventDef)
  scenarios : List (String × ScenarioDef)
  durationSeconds : Option ℚ
  totalEvents : Option Nat
  initialEntityCounts : List (String × Nat)
  startTime : ℚ
  deriving Repr

/-- The orchestrator state touched by `_generate_event`: the entity
store, the (mutable!) schema registry, the random streams and the
simulation clock. -/
structure Orch where
  sm : StateManager
  registry : List (String × Schema)
  gst : GenState
  simTime : ℚ
  deriving Repr

/-- In-place update of one key of an insertion-ordered dict. -/
def alistModify {α : Type} : List (String × α) → String → (α → α) → List (String × α)
  | [], _, _ => []
  | (k', v') :: rest, k, f =>
    if k' == k then (k', f v') :: rest else (k', v') :: alistModify rest k f

/-- Replace the property table of a schema dict. -/
def Schema.withProperties : Schema → List (String × Schema) → Schema
  | .mk t r _ i mn mx g f pa np fe fd v, p => .mk t r (some p) i mn mx g f pa np fe fd v

/-- The scenario-override merge, `orchestrator.py` lines 429–433: for
each override key that is also a top-level property of the (registry-
stored) schema dict, write a `value` key into that property schema —
an in-place mutation of the registry object; keys absent from the
properties are silently ignored. -/
def applyOverrides (schema : Schema) (ov : List (String × Value)) : Schema :=
  ov.foldl (fun s kv =>
    match s.properties with
    | some props =>
      if (props.lookup kv.1).isSome then
        s.withProperties (alistModify props kv.1 (fun p => p.withValue kv.2))
      else s
    | none => s) schema

/-- `get(primary_key, ...)` default branch of state-attribute
initialisation (`_initialize_entity_state_attributes`, default case):
set the default when it is not `None`. -/
def applyDefaultAttr (e : Entity) (attrName : String) (ad : StateAttrDef) : Entity :=
  match ad.default with
  | some .vNull => e
  | some v => e.setState attrName v
  | none => e

/-- One state attribute of `_initialize_entity_state_attributes`
(lines 577–608): a truthy `from_field` copies the named payload field
when present, otherwise the default applies. -/
def applyStateAttr (data : List (String × Value)) (e : Entity) (attrName : String)
    (ad : StateAttrDef) : Entity :=
  match ad.fromField with
  | some f =>
    if f == "" then applyDefaultAttr e attrName ad
    else
      match data.lookup f with
      | some v => e.setState attrName v
      | none => e
  | none => applyDefaultAttr e attrName ad

/-- `_initialize_entity_state_attributes` over all declared state
attributes, in declaration order. -/
def initEntityStateAttrs (cfg : OrchConfig) (etype : String) (e : Entity)
    (data : List (String × Value)) : Entity :=
  match cfg.entities.lookup etype with
  | none => e
  | some edef =>
    edef.stateAttributes.foldl (fun acc p => applyStateAttr data acc p.1 p.2) e

/-- Write an entity back into the store at `(entity_type, id)` — the
pure rendering of a Python in-place mutation of a stored entity. -/
def StateManager.storeEntity (sm : StateManager) (e : Entity) : StateManager :=
  ⟨alistUpdateEntities sm.entities e.entityType (fun es => replaceEntity es e.id e)⟩

/-- The `entity_<alias>` context binding of the consumption loop
(lines 407–411): the first match when `min_required == 1`, the first
`min_required` matches as a list otherwise. -/
def consumptionBinding (c : Consumption) (entities : List Entity) : CtxVal :=
  if c.minRequired == 1 then
    match entities with
    | e :: _ => .ent e
    | [] => .ents []
  else .ents (entities.take c.minRequired)

/-- The consumption loop of `_generate_event` (lines 369–413): for each
entry run the selection filter; fewer matches than `min_required`
aborts (returns `none` — the Python `return None`); otherwise bind
`entity_<alias>` (the first match, or the first `min_required` as a
list) and record `consumed_entities[alias]`.  The loop performs reads
only. -/
def consumeScan (sm : StateManager) :
    List Consumption → Ctx → List (String × List Entity) →
    Except String (Option (Ctx × List (String × List Entity)))
  | [], ctx, acc => .ok (some (ctx, acc))
  | c :: rest, ctx, acc =>
    match sm.findEntities c.name c.selectionFilter none with
    | .error e => .error e
    | .ok entities =>
      if entities.length < c.minRequired then .ok none
      else
        consumeScan sm rest (alistPut ctx ("entity_" ++ c.al) (consumptionBinding c entities))
          (alistPut acc c.al (entities.take c.minRequired))

/-- Resolve one `updates_entity_state` attribute value
(lines 536–552): a `{from_payload_field: path}` marker navigates the
just-generated payload, anything else is literal. -/
def resolveAttr (payload : Value) (src : AttrSource) : Value :=
  match src with
  | .lit v => v
  | .fromPayloadField path => getNested payload (splitDots path)

/-- The `updates_entity_state` loop (lines 512–560): resolve the alias
through the context first, then through `consumed_entities` (first
entity); a missing alias logs and continues; the store update can raise
(`increment` type errors propagate out of `_generate_event`). -/
def applyStateUpdates (payload : Value) (ctx : Ctx)
    (consumed : List (String × List Entity)) :
    StateManager → List StateUpdateDef → Except String StateManager
  | sm, [] => .ok sm
  | sm, u :: rest =>
    let entity? : Except String (Option Entity) :=
      match List.lookup ("entity_" ++ u.entityAlias) ctx with
      | some (.ent e) => .ok (some e)
      | some (.ents _) => .error "AttributeError: list object has no attribute entity_type"
      | some _ => .error "AttributeError: object has no attribute entity_type"
      | none =>
        match consumed.lookup u.entityAlias with
        | some (e :: _) => .ok (some e)
        | some [] => .ok none
        | none => .ok none
    match entity? with
    | .error e => .error e
    | .ok none => applyStateUpdates payload ctx consumed sm rest
    | .ok (some ent) =>
      let sets := u.setAttributes.map (fun p => (p.1, resolveAttr payload p.2))
      let incs := u.incrementAttributes.map (fun p => (p.1, resolveAttr payload p.2))
      let r := sm.updateEntityState ent.entityType ent.id sets incs
      match r.error with
      | some msg => .error msg
      | none => applyStateUpdates payload ctx consumed r.store rest

/-- `_generate_event`, lines 349–562.  Differences of record against the
source that are pure notation: the filter-format conversion loop copies
`field`/`operator`/`value` verbatim and is the identity here; the
`entity_alias` scenario branch (lines 465–468) is unreachable because no
code path ever places an `entity_alias` key in a context, and is
omitted.  The payload must be a dict wherever the source would read
`.get`/`.update` on it (entity production), raising otherwise. -/
def generateEvent (cfg : OrchConfig) (o : Orch) (sev : ScheduledEvent) :
    Except String (Option EventRec × Orch) :=
  match cfg.eventTypes.lookup sev.eventType with
  | none => .ok (none, o)
  | some ed =>
    let ctx0 := alistPut sev.context "simulation_time" (.time o.simTime)
    match consumeScan o.sm ed.consumesEntities ctx0 [] with
    | .error e => .error e
    | .ok none => .ok (none, o)
    | .ok (some (ctx1, consumed)) =>
      let ctx2 := alistPut ctx1 "consumed_entities" (.consumed consumed)
      let schemaName :=
        if strStartsWith ed.payloadSchema "#/schemas/" then ed.payloadSchema.drop 10
        else ed.payloadSchema
      match o.registry.lookup schemaName with
      | none => .ok (none, o)
      | some schema0 =>
        let overrides : Option (List (String × Value)) :=
          match List.lookup "payload_overrides" ctx2 with
          | some (.overrides m) => some m
          | _ => none
        let schema1 :=
          match overrides with
          | some m => applyOverrides schema0 m
          | none => schema0
        let registry1 :=
          match overrides with
          | some _ => alistPut o.registry schemaName schema1
          | none => o.registry
        match genValue o.sm registry1 genFuel schema1 ctx2 o.gst with
        | .error e => .error e
        | .ok (payload, gst1) =>
          let ev : EventRec := ⟨sev.eventType, payload, o.simTime⟩
          -- produces_entity (lines 445–468)
          let afterProduce : Except String (StateManager × GenState × Ctx) :=
            match ed.producesEntity with
            | none => .ok (o.sm, gst1, ctx2)
            | some etype =>
              match (cfg.entities.lookup etype).map EntityDef.primaryKey with
              | none => .ok (o.sm, gst1, ctx2)
              | some pk =>
                match payload with
                | .vDict pd =>
                  let (fresh, os') := uuid4 gst1.os
                  let (sm1, ent0) := o.sm.createEntity etype pd pk (.vStr fresh)
                  let ent1 := initEntityStateAttrs cfg etype ent0 pd
                  let sm2 := sm1.storeEntity ent1
                  .ok (sm2, { gst1 with os := os' },
                    alistPut ctx2 ("entity_" ++ etype) (.ent ent1))
                | _ => .error "AttributeError: payload has no attribute get"
          match afterProduce with
          | .error e => .error e
          | .ok (smA, gstA, ctxA) =>
            -- produces_or_updates_entity (lines 471–509)
            let afterUpsert : Except String (StateManager × GenState × Ctx) :=
              match ed.producesOrUpdatesEntity with
              | none => .ok (smA, gstA, ctxA)
              | some etype =>
                let (u, rng1) := gstA.rng.unit
                let gstB := { gstA with rng := rng1 }
                let createNew : GenState → Except String (StateManager × GenState × Ctx) :=
                  fun gst =>
                    match (cfg.entities.lookup etype).map EntityDef.primaryKey with
                    | none => .ok (smA, gst, ctxA)
                    | some pk =>
                      match payload with
                      | .vDict pd =>
                        let (fresh, os') := uuid4 gst.os
                        let (sm1, ent0) := smA.createEntity etype pd pk (.vStr fresh)
                        let ent1 := initEntityStateAttrs cfg etype ent0 pd
                        let sm2 := sm1.storeEntity ent1
                        .ok (sm2, { gst with os := os' },
                          alistPut ctxA ("entity_" ++ etype) (.ent ent1))
                      | _ => .error "AttributeError: payload has no attribute get"
                if u < ed.updateExistingProbability then
                  match smA.getAllEntities etype with
                  | [] => createNew gstB
                  | e0 :: es =>
                    match gstB.rng.choice (e0 :: es) with
                    | .error e => .error e
                    | .ok (ent, rng2) =>
                      match payload with
                      | .vDict pd =>
                        let (sm1, entU) := smA.updateEntityData etype ent.id pd
                        let ctxU :=
                          match entU with
                          | some e2 => alistPut ctxA ("entity_" ++ etype) (.ent e2)
                          | none => alistPut ctxA ("entity_" ++ etype) (.ent ent)
                        .ok (sm1, { gstB with rng := rng2 }, ctxU)
                      | _ => .error "TypeError: payload is not a dict"
                else createNew gstB
            match afterUpsert with
            | .error e => .error e
            | .ok (smB, gstB, ctxB) =>
              match applyStateUpdates payload ctxB consumed smB ed.updatesEntityState with
              | .error e => .error e
              | .ok smC =>
                .ok (some ev, { o with sm := smC, registry := registry1, gst := gstB })

/-! ## Scheduler and main loop (`orchestrator.py` lines 124–210,
256–347, 638–750) -/

/-- `heapq.heappush`: the heap is modelled as the bag of pending
entries; a push adds at the end. -/
def heapPush (q : List ScheduledEvent) (se : ScheduledEvent) : List ScheduledEvent :=
  q ++ [se]

/-- `heapq.heappop`: remove a minimal element by `scheduled_time`
(`ScheduledEvent.__lt__` compares only the time; the tie order among
equal times is unspecified in the source and modelled leftmost-first). -/
def popMin : List ScheduledEvent → Option (ScheduledEvent × List ScheduledEvent)
  | [] => none
  | se :: rest =>
    match popMin rest with
    | none => some (se, [])
    | some (m, rest') =>
      if se.scheduledTime ≤ m.scheduledTime then some (se, rest)
      else some (m, se :: rest')

/-- The per-entry feasibility test of `_can_generate_event`
(lines 315–347): every consumption entry must count at least
`min_required` matches. -/
def canGenAux (sm : StateManager) : List Consumption → Except String Bool
  | [] => .ok true
  | c :: rest =>
    match sm.countEntities c.name (some c.selectionFilter) with
    | .error e => .error e
    | .ok n => if n < c.minRequired then .ok false else canGenAux sm rest

/-- `_can_generate_event`. -/
def canGenerate (cfg : OrchConfig) (sm : StateManager) (etype : String) :
    Except String Bool :=
  match cfg.eventTypes.lookup etype with
  | none => .ok false
  | some ed => canGenAux sm ed.consumesEntities

/-- The feasible pool of `_schedule_additional_events` (lines 282–298):
event types passing `_can_generate_event`, with their frequency
weights, in declaration order. -/
def validPool (cfg : OrchConfig) (sm : StateManager) :
    List (String × EventDef) → Except String (List (String × ℚ))
  | [] => .ok []
  | (name, ed) :: rest =>
    match canGenAux sm ed.consumesEntities with
    | .error e => .error e
    | .ok true =>
      match validPool cfg sm rest with
      | .error e => .error e
      | .ok pool => .ok ((name, ed.frequencyWeight) :: pool)
    | .ok false => validPool cfg sm rest

/-- The scheduling loop common to `_schedule_initial_events` and
`_schedule_additional_events`: `n` rounds of weighted choice over the
pool followed by a uniform delay in `[lo, hi]` from the current
simulation time; an empty pool stops immediately. -/
def scheduleRound (pool : List (String × ℚ)) (lo hi now : ℚ) :
    Nat → Lcg → List ScheduledEvent → Except String (List ScheduledEvent × Lcg)
  | 0, rng, q => .ok (q, rng)
  | n + 1, rng, q =>
    match pool with
    | [] => .ok (q, rng)
    | _ =>
      match rng.weightedChoice (pool.map Prod.fst) (pool.map Prod.snd) with
      | .error e => .error e
      | .ok (etype, rng1) =>
        let (d, rng2) := rng1.uniform lo hi
        scheduleRound pool lo hi now n rng2 (heapPush q ⟨etype, now + d, []⟩)

/-- One mutable simulation state: the orchestrator sub-state, the event
queue, the active scenarios, the emitted trace and the emission count. -/
structure RunState where
  orch : Orch
  queue : List ScheduledEvent
  activeScenarios : List ScenarioInstance
  emitted : List EventRec
  eventCount : Nat
  deriving Repr

/-- `_schedule_initial_events` (lines 256–280): ten pushes over all
event types (no feasibility gate), delay uniform in `[0, 60]`. -/
def scheduleInitialEvents (cfg : OrchConfig) (rs : RunState) : Except String RunState :=
  let pool := cfg.eventTypes.map (fun p => (p.1, p.2.frequencyWeight))
  match scheduleRound pool 0 60 rs.orch.simTime 10 rs.orch.gst.rng rs.queue with
  | .error e => .error e
  | .ok (q, rng') =>
    .ok { rs with queue := q, orch := { rs.orch with gst := { rs.orch.gst with rng := rng' } } }

/-- `_schedule_additional_events` (lines 282–313): ten pushes over the
feasible pool, delay uniform in `[10, 300]`. -/
def scheduleAdditionalEvents (cfg : OrchConfig) (rs : RunState) : Except String RunState :=
  match validPool cfg rs.orch.sm cfg.eventTypes with
  | .error e => .error e
  | .ok pool =>
    match scheduleRound pool 10 300 rs.orch.simTime 10 rs.orch.gst.rng rs.queue with
    | .error e => .error e
    | .ok (q, rng') =>
      .ok { rs with queue := q, orch := { rs.orch with gst := { rs.orch.gst with rng := rng' } } }

/-- `_schedule_scenario_step` (lines 714–750): a missing definition or
step list, or an exhausted step index, marks the instance completed;
otherwise push the current step with delay uniform in `[5, 30]` and
advance `current_step`.  `token` renders the object identity stored
under `scenario_instance` (never consulted: the only reader,
lines 465–468 of `_generate_event`, is guarded by an `entity_alias`
context key that no code path creates). -/
def scheduleScenarioStep (cfg : OrchConfig) (sc : ScenarioInstance) (simTime : ℚ)
    (rng : Lcg) (q : List ScheduledEvent) (token : Nat) :
    ScenarioInstance × Lcg × List ScheduledEvent :=
  match cfg.scenarios.lookup sc.scenarioName with
  | none => ({ sc with completed := true }, rng, q)
  | some sd =>
    match sd.steps with
    | none => ({ sc with completed := true }, rng, q)
    | some steps =>
      match steps.get? sc.currentStep with
      | none => ({ sc with completed := true }, rng, q)
      | some step =>
        let ctx0 := alistPut sc.context "scenario_instance" (.scenarioRef token)
        let ctx1 :=
          match step.payloadOverrides with
          | some ov => alistPut ctx0 "payload_overrides" (.overrides ov)
          | none => ctx0
        let (d, rng') := rng.uniform 5 30
        ({ sc with currentStep := sc.currentStep + 1 }, rng',
          heapPush q ⟨step.eventType, simTime + d, ctx1⟩)

/-- The `requires_initial_entities` scan of `_initialize_scenarios`
(lines 666–693): each requirement binds the first match of its filter;
an empty match set abandons initiation. -/
def scenarioRequirements (sm : StateManager) :
    List ScenarioRequirement → Except String (Option (List (String × Entity)))
  | [] => .ok (some [])
  | r :: rest =>
    match sm.findEntities r.name r.selectionFilter none with
    | .error e => .error e
    | .ok [] => .ok none
    | .ok (e :: _) =>
      match scenarioRequirements sm rest with
      | .error e2 => .error e2
      | .ok none => .ok none
      | .ok (some m) => .ok (some ((r.al, e) :: m))

/-- `_initialize_scenarios` (lines 638–701): up to `n` rounds (the
source uses 5) of weighted scenario choice; a startable instance is
appended with `current_step = 0` and its FIRST step is scheduled
immediately — this is the only call site of `_schedule_scenario_step`
in the program. -/
def initScenarioRound (cfg : OrchConfig) : Nat → RunState → Except String RunState
  | 0, rs => .ok rs
  | n + 1, rs =>
    match cfg.scenarios with
    | [] => .ok rs
    | _ :: _ =>
      match rs.orch.gst.rng.weightedChoice (cfg.scenarios.map Prod.fst)
          (cfg.scenarios.map (fun p => p.2.initiationWeight)) with
      | .error e => .error e
      | .ok (name, rng1) =>
        let rs1 := { rs with orch := { rs.orch with gst := { rs.orch.gst with rng := rng1 } } }
        match cfg.scenarios.lookup name with
        | none => initScenarioRound cfg n rs1
        | some sd =>
          match scenarioRequirements rs1.orch.sm sd.requiresInitialEntities with
          | .error e => .error e
          | .ok none => initScenarioRound cfg n rs1
          | .ok (some entCtx) =>
            let inst : ScenarioInstance :=
              ⟨name, [("entities", .entMap entCtx)], 0, false, []⟩
            let (inst', rng2, q') := scheduleScenarioStep cfg inst rs1.orch.simTime
              rs1.orch.gst.rng rs1.queue rs1.activeScenarios.length
            let rs2 := { rs1 with
              queue := q',
              activeScenarios := rs1.activeScenarios ++ [inst'],
              orch := { rs1.orch with gst := { rs1.orch.gst with rng := rng2 } } }
            initScenarioRound cfg n rs2

/-- `_process_scenarios` (lines 703–712): drop completed instances; when
fewer than five remain, attempt five more initiations. -/
def processScenarios (cfg : OrchConfig) (rs : RunState) : Except String RunState :=
  let active := rs.activeScenarios.filter (fun sc => !sc.completed)
  let rs1 := { rs with activeScenarios := active }
  if active.length < 5 then initScenarioRound cfg 5 rs1 else .ok rs1

/-- The entity-creation loop of `_create_initial_entities`
(lines 212–254) for one entity type: `count` rounds of schema
generation (context `{simulation_time}`) followed by creation and
state-attribute initialisation.  A missing schema skips the whole
type, as the source warning-returns. -/
def createInitialEntities (cfg : OrchConfig) (etype : String) :
    Nat → Orch → Except String Orch
  | 0, o => .ok o
  | n + 1, o =>
    match cfg.entities.lookup etype with
    | none => .ok o
    | some edef =>
      let schemaName :=
        if strStartsWith edef.schemaRef "#/schemas/" then edef.schemaRef.drop 10
        else edef.schemaRef
      match o.registry.lookup schemaName with
      | none => .ok o
      | some schema =>
        match genValue o.sm o.registry genFuel schema
            [("simulation_time", .time o.simTime)] o.gst with
        | .error e => .error e
        | .ok (data, gst1) =>
          match data with
          | .vDict pd =>
            let (fresh, os') := uuid4 gst1.os
            let (sm1, ent0) := o.sm.createEntity etype pd edef.primaryKey (.vStr fresh)
            let ent1 := initEntityStateAttrs cfg etype ent0 pd
            let sm2 := sm1.storeEntity ent1
            createInitialEntities cfg etype n
              { o with sm := sm2, gst := { gst1 with os := os' } }
          | _ => .error "AttributeError: entity data has no attribute get"

/-- `Orchestrator.initialize` (lines 124–142): initial entities per
configured count, ten primed events, up to five scenario initiations. -/
def initializeSim (cfg : OrchConfig) (o0 : Orch) : Except String RunState :=
  let rec goEntities : List (String × Nat) → Orch → Except String Orch
    | [], o => .ok o
    | (etype, count) :: rest, o =>
      match createInitialEntities cfg etype count o with
      | .error e => .error e
      | .ok o' => goEntities rest o'
  match goEntities cfg.initialEntityCounts o0 with
  | .error e => .error e
  | .ok o1 =>
    let rs0 : RunState := ⟨o1, [], [], [], 0⟩
    match scheduleInitialEvents cfg rs0 with
    | .error e => .error e
    | .ok rs1 => initScenarioRound cfg 5 rs1

/-- Why the loop stopped. -/
inductive HaltReason where
  | durationReached : HaltReason
  | totalEventsReached : HaltReason
  | queueExhausted : HaltReason
  | fuelExhausted : HaltReason
  deriving Repr, DecidableEq

/-- The duration termination predicate of the main loop (line 162):
`elapsed_sim_time ≥ duration_seconds` when a duration is configured. -/
def durationHit (cfg : OrchConfig) (rs : RunState) : Bool :=
  match cfg.durationSeconds with
  | some d => decide (rs.orch.simTime - cfg.startTime ≥ d)
  | none => false

/-- The total-events termination predicate of the main loop (line 166). -/
def totalHit (cfg : OrchConfig) (rs : RunState) : Bool :=
  match cfg.totalEvents with
  | some n => decide (rs.eventCount ≥ n)
  | none => false

/-- `Orchestrator.run` (lines 144–210), with fuel bounding the number
of loop iterations.  Each iteration: the two termination predicates on
the state *before* popping; replenishment when the queue is empty (a
still-empty queue ends the run); pop the earliest entry and advance the
clock to it; generate and, when generation yields an event, emit it and
count it; process scenarios; replenish when fewer than 100 entries
remain. -/
def runLoop (cfg : OrchConfig) : Nat → RunState → Except String (RunState × HaltReason)
  | 0, rs => .ok (rs, .fuelExhausted)
  | fuel + 1, rs =>
    if durationHit cfg rs then
      .ok (rs, .durationReached)
    else if totalHit cfg rs then
      .ok (rs, .totalEventsReached)
    else
      match (if rs.queue.isEmpty then scheduleAdditionalEvents cfg rs else .ok rs) with
      | .error e => .error e
      | .ok rs1 =>
        match popMin rs1.queue with
        | none => .ok (rs1, .queueExhausted)
        | some (sev, rest) =>
          let rs2 := { rs1 with
            queue := rest,
            orch := { rs1.orch with simTime := sev.scheduledTime } }
          match generateEvent cfg rs2.orch sev with
          | .error e => .error e
          | .ok (optEv, o') =>
            let rs3 := { rs2 with
              orch := o',
              emitted := match optEv with
                | some ev => rs2.emitted ++ [ev]
                | none => rs2.emitted,
              eventCount := match optEv with
                | some _ => rs2.eventCount + 1
                | none => rs2.eventCount }
            match processScenarios cfg rs3 with
            | .error e => .error e
            | .ok rs4 =>
              match (if rs4.queue.length < 100 then scheduleAdditionalEvents cfg rs4
                     else .ok rs4) with
              | .error e => .error e
              | .ok rs5 => runLoop cfg fuel rs5

/-! ## Properties the theorems speak about -/

/-- Every queued entry is scheduled no earlier than the simulation
clock. -/
def queueLB (rs : RunState) : Prop :=
  ∀ se ∈ rs.queue, rs.orch.simTime ≤ se.scheduledTime

/-- Every emitted event carries a timestamp no later than the simulation
clock. -/
def emittedLE (rs : RunState) : Prop :=
  ∀ ev ∈ rs.emitted, ev.timestamp ≤ rs.orch.simTime

/-- Consecutive emitted events carry non-decreasing timestamps. -/
def emittedMono (rs : RunState) : Prop :=
  List.Chain' (fun a b => a.timestamp ≤ b.timestamp) rs.emitted

/-- The inductive invariant of the main loop: clock-bounded queue and
trace, monotone trace, the emission counter tracking the trace length,
every non-final emitted event strictly inside a configured duration,
the counter within a configured total, and every active scenario
instance still at most one step in. -/
def runInv (cfg : OrchConfig) (rs : RunState) : Prop :=
  queueLB rs ∧ emittedLE rs ∧ emittedMono rs
  ∧ rs.eventCount = rs.emitted.length
  ∧ (∀ d, cfg.durationSeconds = some d →
      ∀ ev ∈ rs.emitted.dropLast, ev.timestamp - cfg.startTime < d)
  ∧ (∀ n, cfg.totalEvents = some n → rs.eventCount ≤ n)
  ∧ (∀ sc ∈ rs.activeScenarios, sc.currentStep ≤ 1)

/-! ## Concrete inputs used by counterexamples and witnesses -/

/-- A bare `{type: string}` schema. -/
def wordSchema : Schema :=
  .mk (some "string") none none none none none none none none none none none none

/-- `{type: object, properties: {status: {type: string}}}`. -/
def statusSchema : Schema :=
  .mk (some "object") none (some [("status", wordSchema)])
    none none none none none none none none none none

/-- `{type: string, generator: uuid_v4}`. -/
def uuidLeafSchema : Schema :=
  .mk (some "string") none none none none none (some "uuid_v4") none none none none none none

/-- `{type: object, properties: {id: {type: string, generator: uuid_v4}}}`. -/
def uuidSchema : Schema :=
  .mk (some "object") none (some [("id", uuidLeafSchema)])
    none none none none none none none none none none

/-- An event definition with no entity effects. -/
def plainEventDef (schemaRef : String) : EventDef :=
  { payloadSchema := schemaRef, producesEntity := none, producesOrUpdatesEntity := none,
    updateExistingProbability := 1 / 2, consumesEntities := [], updatesEntityState := [],
    frequencyWeight := 1 }

/-- Fixed random streams: `random` seeded, faker seeded, three OS entropy
draws available, wall clock zero. -/
def gen0 : GenState := ⟨⟨42⟩, ⟨⟨42⟩⟩, ⟨[7, 8, 9]⟩, 0⟩

/-- Configuration for the override runs: one schema `S`, one event type
`purchase` over it, nothing else. -/
def cfgOverride : OrchConfig :=
  ⟨[("S", statusSchema)], [], [("purchase", plainEventDef "#/schemas/S")],
    [], none, some 1, [], 0⟩

/-- Orchestrator state at simulation time 100 over the `S` registry. -/
def orchOverride : Orch := ⟨StateManager.empty, [("S", statusSchema)], gen0, 100⟩

/-- A scheduled `purchase` whose context carries the scenario override
`{status: "gold"}`. -/
def sevOverride : ScheduledEvent :=
  ⟨"purchase", 100, [("payload_overrides", .overrides [("status", .vStr "gold")])]⟩

/-- Configuration for the determinism run: one event type over the
uuid schema. -/
def cfgUuid : OrchConfig :=
  ⟨[("U", uuidSchema)], [], [("e", plainEventDef "#/schemas/U")], [], none, some 1, [], 0⟩

/-- Orchestrator state whose seeded streams are fixed (seed 42) and whose
OS entropy stream is the parameter: two runs differing only in OS
entropy model two processes with the same `random_seed`. -/
def orchUuid (os : OsEntropy) : Orch :=
  ⟨StateManager.empty, [("U", uuidSchema)], ⟨⟨42⟩, ⟨⟨42⟩⟩, os, 0⟩, 50⟩

/-- A `uuid_v4` scheduled event with an empty context. -/
def sevUuid : ScheduledEvent := ⟨"e", 50, []⟩

/-- Configuration with `duration = 100` seconds and one trivial event
type. -/
def cfgDuration : OrchConfig :=
  ⟨[("S", wordSchema)], [], [("e", plainEventDef "#/schemas/S")], [], some 100, none, [], 0⟩

/-- Padding entries of an event type unknown to `cfgDuration`, scheduled
far in the future: they keep the queue at 100 entries so the
counterexample run performs no replenishment. -/
def paddingSE : ScheduledEvent := ⟨"zzz", 1000000, []⟩

/-- Run state at the start clock whose earliest queued event sits at
t = 150 — past the configured duration of 100. -/
def rsDuration : RunState :=
  ⟨⟨StateManager.empty, [("S", wordSchema)], gen0, 0⟩,
    ⟨"e", 150, []⟩ :: List.replicate 100 paddingSE, [], [], 0⟩

/-- `rsDuration` after one loop iteration: the t = 150 event has been
generated and emitted (the clock now reads 150, past the duration). -/
def rsDurationAfter : RunState :=
  ⟨⟨StateManager.empty, [("S", wordSchema)], ⟨⟨42⟩, ⟨⟨1250496027⟩⟩, ⟨[7, 8, 9]⟩, 0⟩, 150⟩,
    List.replicate 100 paddingSE, [], [⟨"e", .vStr "word-1250496027", 150⟩], 1⟩

/-- A user entity with one numeric state attribute. -/
def userEntity : Entity :=
  ⟨"user", [("user_id", .vStr "u1")], [("visits", .vInt 0)], "user_id", .vStr "u1"⟩

/-- A store holding exactly `userEntity`. -/
def userStore : StateManager := ⟨[("user", [userEntity])]⟩

/-- An event type consuming one `user` with an empty selection filter. -/
def consumeED : EventDef :=
  { payloadSchema := "S", producesEntity := none, producesOrUpdatesEntity := none,
    updateExistingProbability := 1 / 2, consumesEntities := [⟨"user", "u", [], 1⟩],
    updatesEntityState := [], frequencyWeight := 1 }

/-- Configuration with the consuming event type over schema `S`. -/
def cfgConsume : OrchConfig :=
  ⟨[("S", wordSchema)], [], [("buy", consumeED)], [], none, none, [], 0⟩

/-- Orchestrator state over the one-user store. -/
def orchConsume : Orch := ⟨userStore, [("S", wordSchema)], gen0, 5⟩

/-- A scheduled `buy` event. -/
def sevConsume : ScheduledEvent := ⟨"buy", 5, []⟩

/-- The orchestrator state after the `buy` generation: only the faker
stream advanced. -/
def orchConsumeAfter : Orch :=
  ⟨userStore, [("S", wordSchema)], ⟨⟨42⟩, ⟨⟨1250496027⟩⟩, ⟨[7, 8, 9]⟩, 0⟩, 5⟩

/-- The empty configuration. -/
def emptyCfg : OrchConfig := ⟨[], [], [], [], none, none, [], 0⟩

/-- The empty run state. -/
def emptyRun : RunState := ⟨⟨StateManager.empty, [], gen0, 0⟩, [], [], [], 0⟩

/-- The empty configuration with `total_events = 0`: the very first
iteration stops by the total-events condition. -/
def cfgTotal : OrchConfig := ⟨[], [], [], [], none, some 0, [], 0⟩

/-! # Theorems

First the helper lemmas about association lists, the state-update loops
and the scan functions; then, claim by claim, the main theorems with
their witnesses and counterexamples. -/

theorem lookup_alistPut_self {α : Type} (m : List (String × α)) (k : String) (v : α) :
    (alistPut m k v).lookup k = some v := by
  induction m with
  | nil => simp [alistPut]
  | cons kv rest ih =>
    obtain ⟨k', v'⟩ := kv
    by_cases h : k' = k
    · subst h
      simp [alistPut]
    · have hb : (k == k') = false := beq_eq_false_iff_ne.mpr (Ne.symm h)
      have hb' : (k' == k) = false := beq_eq_false_iff_ne.mpr h
      simp [alistPut, hb, hb', List.lookup, ih]

theorem lookup_alistPut_ne {α : Type} (m : List (String × α)) {k k' : String} (v : α)
    (h : k' ≠ k) : (alistPut m k v).lookup k' = m.lookup k' := by
  have hb : (k' == k) = false := beq_eq_false_iff_ne.mpr h
  induction m with
  | nil => simp [alistPut, List.lookup, hb]
  | cons kv rest ih =>
    obtain ⟨k0, v0⟩ := kv
    by_cases h0 : k0 = k
    · subst h0
      simp [alistPut, List.lookup, hb]
    · have hb0 : (k0 == k) = false := beq_eq_false_iff_ne.mpr h0
      simp [alistPut, hb0, List.lookup, ih]

theorem applySets_cons (e : Entity) (kv : String × Value) (rest : List (String × Value)) :
    applySets e (kv :: rest) = applySets (e.setState kv.1 kv.2) rest := rfl

theorem setState_entityType (e : Entity) (k : String) (v : Value) :
    (e.setState k v).entityType = e.entityType := rfl

theorem setState_id (e : Entity) (k : String) (v : Value) :
    (e.setState k v).id = e.id := rfl

theorem applySets_entityType (e : Entity) (sets : List (String × Value)) :
    (applySets e sets).entityType = e.entityType := by
  induction sets generalizing e with
  | nil => rfl
  | cons kv rest ih => rw [applySets_cons]; exact ih _

theorem applySets_id (e : Entity) (sets : List (String × Value)) :
    (applySets e sets).id = e.id := by
  induction sets generalizing e with
  | nil => rfl
  | cons kv rest ih => rw [applySets_cons]; exact ih _

theorem applySets_lookup_not_mem (e : Entity) (sets : List (String × Value)) (k : String)
    (h : k ∉ sets.map Prod.fst) : (applySets e sets).state.lookup k = e.state.lookup k := by
  induction sets generalizing e with
  | nil => rfl
  | cons kv rest ih =>
    rw [applySets_cons]
    have hk : k ≠ kv.1 := by
      intro he
      exact h (by simp [he])
    rw [ih _ (by intro hm; exact h (by simp [hm]))]
    exact lookup_alistPut_ne e.state kv.2 hk

theorem applySets_lookup_mem (e : Entity) (sets : List (String × Value)) (k : String)
    (v : Value) (hnd : (sets.map Prod.fst).Nodup) (hm : (k, v) ∈ sets) :
    (applySets e sets).state.lookup k = some v := by
  induction sets generalizing e with
  | nil => simp at hm
  | cons kv rest ih =>
    rw [applySets_cons]
    rcases List.mem_cons.mp hm with he | hmr
    · subst he
      have hk : k ∉ rest.map Prod.fst := by
        simp at hnd
        simpa using hnd.1
      rw [applySets_lookup_not_mem _ _ _ hk]
      exact lookup_alistPut_self e.state k v
    · exact ih _ (by simp at hnd; exact (List.nodup_cons.mp (by simpa using hnd)).2) hmr

theorem incrementState_cases (e : Entity) (k : String) (v : Value) :
    (((e.state.lookup k).getD (.vInt 0)).isNumeric && v.isNumeric) = true ∧
      e.incrementState k v =
        .ok { e with state := alistPut e.state k (numAdd ((e.state.lookup k).getD (.vInt 0)) v) }
    ∨ (((e.state.lookup k).getD (.vInt 0)).isNumeric && v.isNumeric) = false ∧
      e.incrementState k v = .error ("Cannot increment non-numeric state " ++ k) := by
  by_cases h : (((e.state.lookup k).getD (.vInt 0)).isNumeric && v.isNumeric) = true
  · exact Or.inl ⟨h, by simp [Entity.incrementState, h]⟩
  · exact Or.inr ⟨by simpa using h, by simp [Entity.incrementState, h]⟩

theorem applyIncrements_entityType (e : Entity) (incs : List (String × Value)) :
    (applyIncrements e incs).1.entityType = e.entityType := by
  induction incs generalizing e with
  | nil => rfl
  | cons kv rest ih =>
    rcases incrementState_cases e kv.1 kv.2 with ⟨-, hc⟩ | ⟨-, hc⟩
    · simpa [applyIncrements, hc] using ih _
    · simp [applyIncrements, hc]

theorem applyIncrements_id (e : Entity) (incs : List (String × Value)) :
    (applyIncrements e incs).1.id = e.id := by
  induction incs generalizing e with
  | nil => rfl
  | cons kv rest ih =>
    rcases incrementState_cases e kv.1 kv.2 with ⟨-, hc⟩ | ⟨-, hc⟩
    · simpa [applyIncrements, hc] using ih _
    · simp [applyIncrements, hc]

theorem applyIncrements_ok_not_mem (e : Entity) (incs : List (String × Value)) (k : String)
    (hok : (applyIncrements e incs).2 = none) (h : k ∉ incs.map Prod.fst) :
    (applyIncrements e incs).1.state.lookup k = e.state.lookup k := by
  induction incs generalizing e with
  | nil => rfl
  | cons kv rest ih =>
    have hk : k ≠ kv.1 := by
      intro he
      exact h (by simp [he])
    rcases incrementState_cases e kv.1 kv.2 with ⟨-, hc⟩ | ⟨-, hc⟩
    · simp only [applyIncrements, hc] at hok ⊢
      rw [ih _ hok (by intro hm; exact h (by simp [hm]))]
      exact lookup_alistPut_ne e.state _ hk
    · simp [applyIncrements, hc] at hok

theorem applyIncrements_ok_mem (e : Entity) (incs : List (String × Value)) (k : String)
    (d : Value) (hok : (applyIncrements e incs).2 = none)
    (hnd : (incs.map Prod.fst).Nodup) (hm : (k, d) ∈ incs) :
    (applyIncrements e incs).1.state.lookup k =
      some (numAdd ((e.state.lookup k).getD (.vInt 0)) d) := by
  induction incs generalizing e with
  | nil => simp at hm
  | cons kv rest ih =>
    rcases incrementState_cases e kv.1 kv.2 with ⟨-, hc⟩ | ⟨-, hc⟩
    · simp only [applyIncrements, hc] at hok ⊢
      rcases List.mem_cons.mp hm with he | hmr
      · have he1 : kv.1 = k := by rw [← he]
        have he2 : kv.2 = d := by rw [← he]
        have hk : k ∉ rest.map Prod.fst := by
          rw [← he1]
          simp at hnd
          simpa using hnd.1
        rw [applyIncrements_ok_not_mem _ _ _ hok hk, he1, he2]
        exact lookup_alistPut_self e.state k _
      · have hk1 : k ≠ kv.1 := by
          intro he
          have : kv.1 ∈ rest.map Prod.fst := List.mem_map.mpr ⟨(k, d), hmr, by simp [he]⟩
          simp at hnd
          exact absurd (by simpa [← he] using this) (by simpa [he] using hnd.1)
        rw [ih _ hok (by simp at hnd; exact (List.nodup_cons.mp (by simpa using hnd)).2) hmr,
          lookup_alistPut_ne e.state _ hk1]
    · simp [applyIncrements, hc] at hok

theorem find?_replaceEntity (es : List Entity) (idv : Value) (e e' : Entity)
    (hfind : es.find? (fun x => pyEq x.id idv) = some e)
    (hid : pyEq e'.id idv = true) :
    (replaceEntity es idv e').find? (fun x => pyEq x.id idv) = some e' := by
  induction es with
  | nil => simp [List.find?] at hfind
  | cons x rest ih =>
    cases hx : pyEq x.id idv with
    | true => simp [replaceEntity, hx, List.find?, hid]
    | false =>
      simp only [List.find?, hx] at hfind
      simp [replaceEntity, hx, List.find?, ih hfind]

theorem lookup_alistUpdateEntities_self (m : List (String × List Entity)) (k : String)
    (f : List Entity → List Entity) (es : List Entity) (h : m.lookup k = some es) :
    (alistUpdateEntities m k f).lookup k = some (f es) := by
  induction m with
  | nil => simp [List.lookup] at h
  | cons kv rest ih =>
    obtain ⟨k0, es0⟩ := kv
    by_cases h0 : k0 = k
    · subst h0
      simp [List.lookup] at h
      subst h
      simp [alistUpdateEntities, List.lookup]
    · have hb : (k0 == k) = false := beq_eq_false_iff_ne.mpr h0
      have hb' : (k == k0) = false := beq_eq_false_iff_ne.mpr (Ne.symm h0)
      simp only [List.lookup, hb'] at h
      simp [alistUpdateEntities, hb, List.lookup, hb', ih h]

/-- C10: incrementing a state key absent from the state map treats the
current value as 0 and succeeds for a numeric delta, storing the delta
itself for `int` and `float` deltas; `increment_state` raises exactly
when the (defaulted) current value or the delta is non-numeric. -/
theorem c10_increment_missing_key :
    (∀ (e : Entity) (k : String) (d : Value),
      e.state.lookup k = none → d.isNumeric = true →
      ∃ e', e.incrementState k d = .ok e'
        ∧ e'.getState k = numAdd (.vInt 0) d
        ∧ (∀ n : Int, d = .vInt n → e'.getState k = d)
        ∧ (∀ q : ℚ, d = .vFloat q → e'.getState k = d))
    ∧ (∀ (e : Entity) (k : String) (d : Value),
        (∃ msg, e.incrementState k d = .error msg) ↔
          (((e.state.lookup k).getD (.vInt 0)).isNumeric = false ∨ d.isNumeric = false)) := by
  constructor
  · intro e k d habs hnum
    have hcur : (e.state.lookup k).getD (.vInt 0) = .vInt 0 := by simp [habs]
    have hcond : (((e.state.lookup k).getD (.vInt 0)).isNumeric && d.isNumeric) = true := by
      rw [hcur]
      simp only [Bool.and_eq_true]
      exact ⟨rfl, hnum⟩
    rcases incrementState_cases e k d with ⟨-, hc⟩ | ⟨hf, -⟩
    · refine ⟨_, hc, ?_, ?_, ?_⟩
      · simp [Entity.getState, lookup_alistPut_self, hcur]
      · intro n hn
        subst hn
        simp [Entity.getState, lookup_alistPut_self, hcur, numAdd, Value.toInt?]
      · intro q hq
        subst hq
        simp [Entity.getState, lookup_alistPut_self, hcur, numAdd, Value.toInt?, Value.toRat?]
    · rw [hcond] at hf
      exact absurd hf (by simp)
  · intro e k d
    rcases incrementState_cases e k d with ⟨ht, hc⟩ | ⟨hf, hc⟩
    · rw [hc]
      simp only [Bool.and_eq_true] at ht
      constructor
      · rintro ⟨msg, hmsg⟩
        exact Except.noConfusion hmsg
      · rintro (h | h)
        · rw [ht.1] at h
          exact absurd h (by simp)
        · rw [ht.2] at h
          exact absurd h (by simp)
    · rw [hc]
      simp only [Bool.and_eq_false_iff] at hf
      constructor
      · intro _
        rcases hf with h | h
        · exact Or.inl h
        · exact Or.inr h
      · intro _
        exact ⟨_, rfl⟩

/-- C10 witness: incrementing the never-initialised key `cnt` of the
concrete user entity by 5 succeeds and stores 5. -/
theorem c10_witness :
    userEntity.state.lookup "cnt" = none ∧ (Value.vInt 5).isNumeric = true ∧
    ∃ e', userEntity.incrementState "cnt" (.vInt 5) = .ok e'
      ∧ e'.getState "cnt" = numAdd (.vInt 0) (.vInt 5) := by
  refine ⟨rfl, rfl, ?_⟩
  obtain ⟨e', h1, h2, -, -⟩ :=
    c10_increment_missing_key.1 userEntity "cnt" (.vInt 5) rfl rfl
  exact ⟨e', h1, h2⟩

/-- C7 counterexample: a failing increment raises, yet the already
applied `set` attribute survives in the store — the entity observably
differs from its pre-update state, so the update is not atomic on
error. -/
theorem c7_counterexample :
    (userStore.updateEntityState "user" (.vStr "u1")
        [("plan", .vStr "gold")] [("visits", .vStr "oops")]).error
      = some "Cannot increment non-numeric state visits"
    ∧ ((userStore.updateEntityState "user" (.vStr "u1")
        [("plan", .vStr "gold")] [("visits", .vStr "oops")]).store.getEntity
          "user" (.vStr "u1")).map Entity.state
      = some [("visits", .vInt 0), ("plan", .vStr "gold")]
    ∧ (userStore.getEntity "user" (.vStr "u1")).map Entity.state
      = some [("visits", .vInt 0)]
    ∧ (some [("visits", Value.vInt 0), ("plan", Value.vStr "gold")] :
        Option (List (String × Value)))
      ≠ some [("visits", .vInt 0)] := by
  refine ⟨rfl, rfl, rfl, ?_⟩
  intro h
  simp at h

/-- C7 (amended): `update_entity_state` applies all sets, then the
increments in order, in one synchronous step; when no increment fails,
the returned entity is the stored entity and both effects are
observable on it (each set key holds its value, each increment key
holds old-plus-delta, for non-repeating disjoint keys).  When an
increment raises a type error, the sets and the increments already
processed remain applied — there is no roll-back (see the
counterexample). -/
theorem c7_update_state_amended (sm : StateManager) (etype : String) (idv : Value)
    (sets incs : List (String × Value)) (e : Entity)
    (hfound : sm.getEntity etype idv = some e)
    (hns : (sets.map Prod.fst).Nodup)
    (hni : (incs.map Prod.fst).Nodup)
    (hdisj : ∀ k ∈ sets.map Prod.fst, k ∉ incs.map Prod.fst)
    (hok : (sm.updateEntityState etype idv sets incs).error = none) :
    ∃ e', (sm.updateEntityState etype idv sets incs).returned = some e'
      ∧ (sm.updateEntityState etype idv sets incs).store.getEntity etype idv = some e'
      ∧ (∀ k v, (k, v) ∈ sets → e'.getState k = v)
      ∧ (∀ k d, (k, d) ∈ incs →
          e'.getState k = numAdd ((e.state.lookup k).getD (.vInt 0)) d) := by
  cases hl : sm.entities.lookup etype with
  | none => simp [StateManager.getEntity, hl] at hfound
  | some es =>
    have hfind : es.find? (fun x => pyEq x.id idv) = some e := by
      simpa [StateManager.getEntity, hl] using hfound
    have hup : sm.updateEntityState etype idv sets incs =
        { store := ⟨alistUpdateEntities sm.entities etype
            (fun l => replaceEntity l idv (applyIncrements (applySets e sets) incs).1)⟩,
          error := (applyIncrements (applySets e sets) incs).2,
          returned := if (applyIncrements (applySets e sets) incs).2.isSome then none
            else some (applyIncrements (applySets e sets) incs).1 } := by
      simp [StateManager.updateEntityState, StateManager.getEntity, hl, hfind]
    have herr : (applyIncrements (applySets e sets) incs).2 = none := by
      rw [hup] at hok
      exact hok
    refine ⟨(applyIncrements (applySets e sets) incs).1, ?_, ?_, ?_, ?_⟩
    · rw [hup]
      simp [herr]
    · rw [hup]
      have hid : pyEq (applyIncrements (applySets e sets) incs).1.id idv = true := by
        rw [applyIncrements_id, applySets_id]
        have hp := List.find?_some hfind
        simpa using hp
      simp only [StateManager.getEntity,
        lookup_alistUpdateEntities_self sm.entities etype _ es hl]
      exact find?_replaceEntity es idv e _ hfind hid
    · intro k v hm
      have hknotinc : k ∉ incs.map Prod.fst :=
        hdisj k (List.mem_map.mpr ⟨(k, v), hm, rfl⟩)
      rw [Entity.getState, applyIncrements_ok_not_mem _ _ _ herr hknotinc,
        applySets_lookup_mem e sets k v hns hm]
      rfl
    · intro k d hm
      have hkinc : k ∈ incs.map Prod.fst := List.mem_map.mpr ⟨(k, d), hm, rfl⟩
      have hknotset : k ∉ sets.map Prod.fst := fun hs => hdisj k hs hkinc
      rw [Entity.getState, applyIncrements_ok_mem _ _ _ _ herr hni hm,
        applySets_lookup_not_mem _ _ _ hknotset]
      rfl

/-- C7 witness: a successful update of the concrete user store, with
the set attribute and the incremented attribute both observable on the
returned entity. -/
theorem c7_witness :
    ∃ e', (userStore.updateEntityState "user" (.vStr "u1")
        [("plan", .vStr "gold")] [("visits", .vInt 2)]).returned = some e'
      ∧ e'.getState "plan" = .vStr "gold"
      ∧ e'.getState "visits"
        = numAdd ((userEntity.state.lookup "visits").getD (.vInt 0)) (.vInt 2) := by
  obtain ⟨e', h1, h2, h3, h4⟩ := c7_update_state_amended userStore "user" (.vStr "u1")
    [("plan", .vStr "gold")] [("visits", .vInt 2)] userEntity rfl (by simp) (by simp)
    (by decide) rfl
  exact ⟨e', h1, h3 "plan" (.vStr "gold") (by simp), h4 "visits" (.vInt 2) (by simp)⟩

theorem matchesFilter_iff (e : Entity) (fs : List Filter) :
    e.matchesFilter fs = .ok true ↔
      ∀ f ∈ fs, applyOp f.op (e.fieldValue f.field) f.value = .ok true := by
  induction fs with
  | nil => simp [Entity.matchesFilter]
  | cons f rest ih =>
    constructor
    · intro h g hg
      cases happ : applyOp f.op (e.fieldValue f.field) f.value with
      | error msg => simp [Entity.matchesFilter, happ] at h
      | ok b =>
        cases b with
        | false => simp [Entity.matchesFilter, happ] at h
        | true =>
          rcases List.mem_cons.mp hg with he | hgr
          · subst he
            exact happ
          · have hrest : e.matchesFilter rest = .ok true := by
              simpa [Entity.matchesFilter, happ] using h
            exact ih.mp hrest g hgr
    · intro h
      have h1 := h f (List.mem_cons_self f rest)
      have hrest := ih.mpr (fun g hg => h g (List.mem_cons_of_mem f hg))
      simp [Entity.matchesFilter, h1, hrest]

/-- C8 (amended): `matches_filter` is the left-to-right conjunction of
the predicates (true exactly when every predicate evaluates to true); a
`state.`-prefixed field reads the state map and any other field walks
`data` by dotted path with missing segments yielding null; an unknown
operator raises `ValueError` (`InvalidSchema`); but an ordering
comparison against a null operand raises `TypeError` — it does *not*
evaluate to false. -/
theorem c8_matches_filter_amended :
    (∀ (e : Entity) (fs : List Filter),
        e.matchesFilter fs = .ok true ↔
          ∀ f ∈ fs, applyOp f.op (e.fieldValue f.field) f.value = .ok true)
    ∧ (∀ (e : Entity) (field : String), strStartsWith field "state." = true →
        e.fieldValue field = e.getState (field.drop 6))
    ∧ (∀ (e : Entity) (field : String), strStartsWith field "state." = false →
        e.fieldValue field = getNested (.vDict e.data) (splitDots field))
    ∧ (∀ (m : List (String × Value)) (p : String) (parts : List String),
        m.lookup p = none → getNested (.vDict m) (p :: parts) = .vNull)
    ∧ (∀ (v : Value) (op : String),
        op = "greater_than" ∨ op = "less_than" ∨ op = "greater_equals" ∨ op = "less_equals" →
        applyOp op .vNull v = .error "TypeError: unsupported comparison")
    ∧ (∀ (a b : Value) (op : String), op ∉ operatorNames →
        applyOp op a b = .error ("Unsupported operator: " ++ op)) := by
  refine ⟨matchesFilter_iff, ?_, ?_, ?_, ?_, ?_⟩
  · intro e field h
    simp [Entity.fieldValue, h]
  · intro e field h
    simp [Entity.fieldValue, h]
  · intro m p parts h
    simp [getNested, h]
  · intro v op h
    have hnull : pyCompare .vNull v = .error "TypeError: unsupported comparison" := by
      cases v <;> simp [pyCompare, Value.toRat?]
    rcases h with h | h | h | h <;> subst h <;> simp [applyOp, hnull]
  · intro a b op h
    simp only [operatorNames, List.mem_cons, List.not_mem_nil, or_false] at h
    push_neg at h
    obtain ⟨h1, h2, h3, h4, h5, h6, h7, h8, h9, h10⟩ := h
    simp [applyOp, beq_eq_false_iff_ne.mpr h1, beq_eq_false_iff_ne.mpr h2,
      beq_eq_false_iff_ne.mpr h3, beq_eq_false_iff_ne.mpr h4, beq_eq_false_iff_ne.mpr h5,
      beq_eq_false_iff_ne.mpr h6, beq_eq_false_iff_ne.mpr h7, beq_eq_false_iff_ne.mpr h8,
      beq_eq_false_iff_ne.mpr h9, beq_eq_false_iff_ne.mpr h10]

/-- C8 counterexample: a `greater_than` filter over a missing field
(whose value resolves to null) raises `TypeError` — the filter does not
evaluate to false as the claim states. -/
theorem c8_counterexample :
    userEntity.matchesFilter [⟨"age", "greater_than", .vInt 18⟩]
      = .error "TypeError: unsupported comparison"
    ∧ userEntity.matchesFilter [⟨"age", "greater_than", .vInt 18⟩] ≠ .ok false := by
  refine ⟨rfl, ?_⟩
  intro h
  rw [show userEntity.matchesFilter [⟨"age", "greater_than", .vInt 18⟩]
      = .error "TypeError: unsupported comparison" from rfl] at h
  exact Except.noConfusion h

/-- C8 witness: the amended theorem applied at concrete inputs — the
null-ordering clause at `greater_than` over null, and the conjunction
clause at the empty filter list. -/
theorem c8_witness :
    applyOp "greater_than" .vNull (.vInt 3) = .error "TypeError: unsupported comparison"
    ∧ userEntity.matchesFilter [] = .ok true := by
  refine ⟨c8_matches_filter_amended.2.2.2.2.1 (.vInt 3) "greater_than" (Or.inl rfl), ?_⟩
  exact (c8_matches_filter_amended.1 userEntity []).mpr (by simp)

/-- C5: the scenario override `{status: "gold"}` is written into the
registry schema as a `value` key, yet the generated payload carries a
fresh fake word, not the override — `SchemaGenerator.generate` never
reads the `value` key, so the override does not replace generation. -/
theorem c5_override_has_no_effect :
    (generateEvent cfgOverride orchOverride sevOverride).map Prod.fst
      = .ok (some ⟨"purchase", .vDict [("status", .vStr "word-1250496027")], 100⟩)
    ∧ (generateEvent cfgOverride orchOverride sevOverride).map
        (fun p => ((p.2.registry.lookup "S").bind Schema.properties).bind
          (fun props => (props.lookup "status").bind Schema.value))
      = .ok (some (.vStr "gold"))
    ∧ (Value.vStr "word-1250496027") ≠ .vStr "gold" := by
  refine ⟨rfl, rfl, ?_⟩
  intro h
  simp at h

/-- C9: after one generation with overrides, the schema stored in the
registry under `S` has gained a `value` key on the `status` property —
the registry object was mutated in place, so the second generation of
`S` does not see the schema the first one saw. -/
theorem c9_registry_schema_mutated :
    ((orchOverride.registry.lookup "S").bind Schema.properties).bind
        (fun props => (props.lookup "status").bind Schema.value)
      = none
    ∧ (generateEvent cfgOverride orchOverride sevOverride).map
        (fun p => ((p.2.registry.lookup "S").bind Schema.properties).bind
          (fun props => (props.lookup "status").bind Schema.value))
      = .ok (some (.vStr "gold"))
    ∧ (Except.ok (some (Value.vStr "gold")) :
        Except String (Option Value)) ≠ .ok none := by
  refine ⟨rfl, rfl, ?_⟩
  intro h
  simp at h

/-- C1: two runs with the same `random_seed` (the seeded streams of both
orchestrators are identical, state 42) but different operating-system
entropy emit different `uuid_v4` payload values: `uuid.uuid4()` reads
`os.urandom`, which `random.seed` does not control, so the event stream
is not byte-for-byte deterministic under the seed. -/
theorem c1_uuid_breaks_seed_determinism :
    (orchUuid ⟨[1]⟩).gst.rng = (orchUuid ⟨[2]⟩).gst.rng
    ∧ (orchUuid ⟨[1]⟩).gst.faker = (orchUuid ⟨[2]⟩).gst.faker
    ∧ (generateEvent cfgUuid (orchUuid ⟨[1]⟩) sevUuid).map Prod.fst
      = .ok (some ⟨"e", .vDict [("id", .vStr "uuid-1")], 50⟩)
    ∧ (generateEvent cfgUuid (orchUuid ⟨[2]⟩) sevUuid).map Prod.fst
      = .ok (some ⟨"e", .vDict [("id", .vStr "uuid-2")], 50⟩)
    ∧ (Value.vDict [("id", .vStr "uuid-1")]) ≠ .vDict [("id", .vStr "uuid-2")] := by
  refine ⟨rfl, rfl, rfl, rfl, ?_⟩
  intro h
  simp at h

/-- C4 counterexample: with `duration = 100` and start time 0, the run
emits the event scheduled at t = 150 — `timestamp - start_time = 150 >
100` — because the duration check runs before the pop; only the loop
iteration *after* the emission halts. -/
theorem c4_counterexample :
    runLoop cfgDuration 2 rsDuration = .ok (rsDurationAfter, .durationReached)
    ∧ rsDurationAfter.emitted.map EventRec.timestamp = [150]
    ∧ cfgDuration.durationSeconds = some 100
    ∧ ((150 : ℚ) - cfgDuration.startTime > 100) := by
  have hd0 : durationHit cfgDuration rsDuration = false := by
    rw [show durationHit cfgDuration rsDuration = decide ((0 : ℚ) - 0 ≥ 100) from rfl]
    simp only [decide_eq_false_iff_not]
    norm_num
  have hd1 : durationHit cfgDuration rsDurationAfter = true := by
    rw [show durationHit cfgDuration rsDurationAfter = decide ((150 : ℚ) - 0 ≥ 100) from rfl]
    simp only [decide_eq_true_eq]
    norm_num
  have step1 : runLoop cfgDuration 2 rsDuration = runLoop cfgDuration 1 rsDurationAfter := by
    conv_lhs => rw [show (2 : Nat) = 1 + 1 from rfl]
    simp only [runLoop, hd0]
    rfl
  have step2 : runLoop cfgDuration 1 rsDurationAfter
      = .ok (rsDurationAfter, .durationReached) := by
    conv_lhs => rw [show (1 : Nat) = 0 + 1 from rfl]
    simp only [runLoop, hd1]
    rfl
  refine ⟨step1.trans step2, rfl, rfl, by norm_num [cfgDuration]⟩

theorem string_append_left_cancel {p a b : String} (h : p ++ a = p ++ b) : a = b := by
  have hd : (p ++ a).data = (p ++ b).data := by rw [h]
  rw [String.data_append, String.data_append] at hd
  exact String.ext (List.append_cancel_left hd)

theorem consumeScan_aborts (sm : StateManager) :
    ∀ (entries : List Consumption) (ctx : Ctx) (acc : List (String × List Entity)),
    (∀ c ∈ entries, ∃ es, sm.findEntities c.name c.selectionFilter none = .ok es) →
    (∃ c ∈ entries, ∀ es,
      sm.findEntities c.name c.selectionFilter none = .ok es → es.length < c.minRequired) →
    consumeScan sm entries ctx acc = .ok none := by
  intro entries
  induction entries with
  | nil =>
    intro ctx acc _ hex
    simp at hex
  | cons c0 rest ih =>
    intro ctx acc hall hex
    obtain ⟨es0, hes0⟩ := hall c0 (List.mem_cons_self c0 rest)
    by_cases hlt : es0.length < c0.minRequired
    · simp [consumeScan, hes0, hlt]
    · simp only [consumeScan, hes0, hlt, if_neg]
      apply ih
      · intro c hc
        exact hall c (List.mem_cons_of_mem c0 hc)
      · obtain ⟨c, hc, hcp⟩ := hex
        rcases List.mem_cons.mp hc with he | hcr
        · subst he
          exact absurd (hcp es0 hes0) hlt
        · exact ⟨c, hcr, hcp⟩

theorem consumeScan_some_feasible (sm : StateManager) :
    ∀ (entries : List Consumption) (ctx : Ctx) (acc : List (String × List Entity)) (r : Ctx × List (String × List Entity)),
    consumeScan sm entries ctx acc = .ok (some r) →
    ∀ c ∈ entries, ∃ es, sm.findEntities c.name c.selectionFilter none = .ok es
      ∧ c.minRequired ≤ es.length := by
  intro entries
  induction entries with
  | nil =>
    intro ctx acc r _ c hc
    simp at hc
  | cons c0 rest ih =>
    intro ctx acc r h c hc
    cases hes : sm.findEntities c0.name c0.selectionFilter none with
    | error e => simp [consumeScan, hes] at h
    | ok es0 =>
      by_cases hlt : es0.length < c0.minRequired
      · simp [consumeScan, hes, hlt] at h
      · simp only [consumeScan, hes, hlt, if_neg] at h
        rcases List.mem_cons.mp hc with he | hcr
        · subst he
          exact ⟨es0, hes, le_of_not_lt hlt⟩
        · exact ih _ _ _ h c hcr

theorem consumeScan_ctx_frame (sm : StateManager) :
    ∀ (entries : List Consumption) (ctx : Ctx) (acc : List (String × List Entity)) (ctxr : Ctx) (accr : List (String × List Entity)),
    consumeScan sm entries ctx acc = .ok (some (ctxr, accr)) →
    ∀ k : String, (∀ c ∈ entries, ("entity_" ++ c.al) ≠ k) →
    ctxr.lookup k = ctx.lookup k := by
  intro entries
  induction entries with
  | nil =>
    intro ctx acc ctxr accr h k _
    simp [consumeScan] at h
    rw [h.1]
  | cons c0 rest ih =>
    intro ctx acc ctxr accr h k hk
    cases hes : sm.findEntities c0.name c0.selectionFilter none with
    | error e => simp [consumeScan, hes] at h
    | ok es0 =>
      by_cases hlt : es0.length < c0.minRequired
      · simp [consumeScan, hes, hlt] at h
      · simp only [consumeScan, hes, hlt, if_neg] at h
        rw [ih _ _ _ _ h k (fun c hc => hk c (List.mem_cons_of_mem c0 hc))]
        exact lookup_alistPut_ne ctx _ (Ne.symm (hk c0 (List.mem_cons_self c0 rest)))

theorem consumeScan_acc_frame (sm : StateManager) :
    ∀ (entries : List Consumption) (ctx : Ctx) (acc : List (String × List Entity)) (ctxr : Ctx) (accr : List (String × List Entity)),
    consumeScan sm entries ctx acc = .ok (some (ctxr, accr)) →
    ∀ k : String, (∀ c ∈ entries, c.al ≠ k) →
    accr.lookup k = acc.lookup k := by
  intro entries
  induction entries with
  | nil =>
    intro ctx acc ctxr accr h k _
    simp [consumeScan] at h
    rw [h.2]
  | cons c0 rest ih =>
    intro ctx acc ctxr accr h k hk
    cases hes : sm.findEntities c0.name c0.selectionFilter none with
    | error e => simp [consumeScan, hes] at h
    | ok es0 =>
      by_cases hlt : es0.length < c0.minRequired
      · simp [consumeScan, hes, hlt] at h
      · simp only [consumeScan, hes, hlt, if_neg] at h
        rw [ih _ _ _ _ h k (fun c hc => hk c (List.mem_cons_of_mem c0 hc))]
        exact lookup_alistPut_ne acc _ (Ne.symm (hk c0 (List.mem_cons_self c0 rest)))

theorem consumeScan_binding (sm : StateManager) :
    ∀ (entries : List Consumption) (ctx : Ctx) (acc : List (String × List Entity)) (ctxr : Ctx) (accr : List (String × List Entity)),
    (entries.map Consumption.al).Nodup →
    consumeScan sm entries ctx acc = .ok (some (ctxr, accr)) →
    ∀ c ∈ entries, ∃ es, sm.findEntities c.name c.selectionFilter none = .ok es
      ∧ c.minRequired ≤ es.length
      ∧ accr.lookup c.al = some (es.take c.minRequired)
      ∧ ctxr.lookup ("entity_" ++ c.al) = some (consumptionBinding c es) := by
  intro entries
  induction entries with
  | nil =>
    intro ctx acc ctxr accr _ _ c hc
    simp at hc
  | cons c0 rest ih =>
    intro ctx acc ctxr accr hnd h c hc
    cases hes : sm.findEntities c0.name c0.selectionFilter none with
    | error e => simp [consumeScan, hes] at h
    | ok es0 =>
      by_cases hlt : es0.length < c0.minRequired
      · simp [consumeScan, hes, hlt] at h
      · simp only [consumeScan, hes, hlt, if_neg] at h
        have hnd0 : c0.al ∉ rest.map Consumption.al := by
          simp only [List.map_cons, List.nodup_cons] at hnd
          exact hnd.1
        rcases List.mem_cons.mp hc with he | hcr
        · have hres : ∃ es, sm.findEntities c0.name c0.selectionFilter none = .ok es
              ∧ c0.minRequired ≤ es.length
              ∧ accr.lookup c0.al = some (es.take c0.minRequired)
              ∧ ctxr.lookup ("entity_" ++ c0.al) = some (consumptionBinding c0 es) := by
            refine ⟨es0, hes, le_of_not_lt hlt, ?_, ?_⟩
            · rw [consumeScan_acc_frame sm rest _ _ _ _ h c0.al
                (fun c hcm hceq => hnd0 (hceq ▸ List.mem_map.mpr ⟨c, hcm, rfl⟩))]
              exact lookup_alistPut_self acc c0.al _
            · rw [consumeScan_ctx_frame sm rest _ _ _ _ h ("entity_" ++ c0.al)
                (fun c hcm hceq => hnd0 ((string_append_left_cancel hceq) ▸
                  List.mem_map.mpr ⟨c, hcm, rfl⟩))]
              exact lookup_alistPut_self ctx _ _
          rw [he]
          exact hres
        · exact ih _ _ _ _ (by
            simp only [List.map_cons, List.nodup_cons] at hnd
            exact hnd.2) h c hcr

theorem generateEvent_some_scan (cfg : OrchConfig) (o : Orch) (sev : ScheduledEvent)
    (ed : EventDef) (ev : EventRec) (o' : Orch)
    (hed : cfg.eventTypes.lookup sev.eventType = some ed)
    (h : generateEvent cfg o sev = .ok (some ev, o')) :
    ∃ r, consumeScan o.sm ed.consumesEntities
      (alistPut sev.context "simulation_time" (.time o.simTime)) [] = .ok (some r) := by
  cases hscan : consumeScan o.sm ed.consumesEntities
      (alistPut sev.context "simulation_time" (.time o.simTime)) [] with
  | error e =>
    simp only [generateEvent, hed, hscan] at h
    simp at h
  | ok op =>
    cases op with
    | none =>
      simp only [generateEvent, hed, hscan] at h
      simp at h
    | some r => exact ⟨r, rfl⟩

/-- C2: the consumption gate of `_generate_event`.  (abort) When every
selection filter evaluates cleanly and some entry matches fewer than
`min_required` entities, generation returns no event and the
orchestrator state — entity store, schema registry, random streams,
clock — is returned unchanged.  (feasibility) When an event is
generated, every consumption entry had at least `min_required` matches
at that moment.  (binding) A generated event was produced under a scan
that bound `consumed_entities[alias]` to the first `min_required`
matches and `entity_<alias>` to the first match (the list when
`min_required ≠ 1`). -/
theorem c2_consumption_gate (cfg : OrchConfig) (o : Orch) (sev : ScheduledEvent)
    (ed : EventDef) (hed : cfg.eventTypes.lookup sev.eventType = some ed) :
    ((∀ c ∈ ed.consumesEntities, ∃ es,
        o.sm.findEntities c.name c.selectionFilter none = .ok es) →
      (∃ c ∈ ed.consumesEntities, ∀ es,
        o.sm.findEntities c.name c.selectionFilter none = .ok es →
          es.length < c.minRequired) →
      generateEvent cfg o sev = .ok (none, o))
    ∧ (∀ ev o', generateEvent cfg o sev = .ok (some ev, o') →
        ∀ c ∈ ed.consumesEntities, ∃ es,
          o.sm.findEntities c.name c.selectionFilter none = .ok es
            ∧ c.minRequired ≤ es.length)
    ∧ (∀ ev o', generateEvent cfg o sev = .ok (some ev, o') →
        (ed.consumesEntities.map Consumption.al).Nodup →
        ∃ ctxr accr, consumeScan o.sm ed.consumesEntities
            (alistPut sev.context "simulation_time" (.time o.simTime)) []
            = .ok (some (ctxr, accr))
          ∧ ∀ c ∈ ed.consumesEntities, ∃ es,
              o.sm.findEntities c.name c.selectionFilter none = .ok es
                ∧ c.minRequired ≤ es.length
                ∧ accr.lookup c.al = some (es.take c.minRequired)
                ∧ ctxr.lookup ("entity_" ++ c.al) = some (consumptionBinding c es)) := by
  refine ⟨?_, ?_, ?_⟩
  · intro hall hex
    have hscan := consumeScan_aborts o.sm ed.consumesEntities
      (alistPut sev.context "simulation_time" (.time o.simTime)) [] hall hex
    simp [generateEvent, hed, hscan]
  · intro ev o' h c hc
    obtain ⟨r, hscan⟩ := generateEvent_some_scan cfg o sev ed ev o' hed h
    exact consumeScan_some_feasible o.sm ed.consumesEntities _ _ r hscan c hc
  · intro ev o' h hnd
    obtain ⟨⟨ctxr, accr⟩, hscan⟩ := generateEvent_some_scan cfg o sev ed ev o' hed h
    exact ⟨ctxr, accr, hscan,
      consumeScan_binding o.sm ed.consumesEntities _ _ ctxr accr hnd hscan⟩

/-- C2 witness: the gate theorem applied to the concrete one-user store
— the `buy` event is generated, so its single consumption entry had at
least one match. -/
theorem c2_witness :
    ∃ es, orchConsume.sm.findEntities "user" [] none = .ok es ∧ 1 ≤ es.length := by
  have h := (c2_consumption_gate cfgConsume orchConsume sevConsume consumeED rfl).2.1
    ⟨"buy", .vStr "word-1250496027", 5⟩ orchConsumeAfter rfl
  exact h ⟨"user", "u", [], 1⟩ (by simp [consumeED])

theorem unit_nonneg (r : Lcg) : 0 ≤ (r.unit).1 := by
  simp only [Lcg.unit]
  positivity

theorem unit_lt_one (r : Lcg) : (r.unit).1 < 1 := by
  simp only [Lcg.unit]
  rw [div_lt_one (by norm_num)]
  have h : (r.next).1 % 1000000 < 1000000 := Nat.mod_lt _ (by norm_num)
  exact_mod_cast h

theorem uniform_bounds (r : Lcg) (a b : ℚ) (h : a ≤ b) :
    a ≤ (r.uniform a b).1 ∧ (r.uniform a b).1 ≤ b := by
  simp only [Lcg.uniform]
  constructor
  · have := mul_nonneg (sub_nonneg.mpr h) (unit_nonneg r)
    linarith
  · have hu := unit_lt_one r
    have := mul_le_mul_of_nonneg_left (le_of_lt hu) (sub_nonneg.mpr h)
    linarith

theorem mem_heapPush (q : List ScheduledEvent) (se x : ScheduledEvent)
    (h : x ∈ heapPush q se) : x ∈ q ∨ x = se := by
  simp only [heapPush, List.mem_append, List.mem_singleton] at h
  exact h

theorem popMin_spec :
    ∀ (q : List ScheduledEvent) (se : ScheduledEvent) (rest : List ScheduledEvent),
    popMin q = some (se, rest) →
    se ∈ q ∧ (∀ x ∈ rest, x ∈ q) ∧ (∀ x ∈ q, se.scheduledTime ≤ x.scheduledTime) := by
  intro q
  induction q with
  | nil =>
    intro se rest h
    simp [popMin] at h
  | cons y ys ih =>
    intro se rest h
    cases hrec : popMin ys with
    | none =>
      cases ys with
      | nil =>
        simp [popMin] at h
        refine ⟨by simp [h.1], by simp [h.2], ?_⟩
        intro x hx
        simp at hx
        simp [h.1, hx]
      | cons z zs =>
        exfalso
        cases hz : popMin zs with
        | none => simp [popMin, hz] at hrec
        | some p =>
          obtain ⟨m, r⟩ := p
          by_cases hc : z.scheduledTime ≤ m.scheduledTime <;> simp [popMin, hz, hc] at hrec
    | some p =>
      obtain ⟨m, r⟩ := p
      obtain ⟨hm1, hm2, hm3⟩ := ih m r hrec
      by_cases hc : y.scheduledTime ≤ m.scheduledTime
      · simp only [popMin, hrec, hc, if_pos, Option.some.injEq, Prod.mk.injEq] at h
        obtain ⟨h1, h2⟩ := h
        subst h1
        subst h2
        refine ⟨List.mem_cons_self y ys, fun x hx => List.mem_cons_of_mem y hx, ?_⟩
        intro x hx
        rcases List.mem_cons.mp hx with rfl | hxy
        · exact le_refl _
        · exact le_trans hc (hm3 x hxy)
      · simp only [popMin, hrec, hc, if_neg, not_false_iff, Option.some.injEq,
          Prod.mk.injEq] at h
        obtain ⟨h1, h2⟩ := h
        subst h1
        subst h2
        refine ⟨List.mem_cons_of_mem y hm1, ?_, ?_⟩
        · intro x hx
          rcases List.mem_cons.mp hx with rfl | hxr
          · exact List.mem_cons_self _ _
          · exact List.mem_cons_of_mem y (hm2 x hxr)
        · intro x hx
          rcases List.mem_cons.mp hx with rfl | hxy
          · exact le_of_not_le hc
          · exact hm3 x hxy

theorem scheduleRound_queue (pool : List (String × ℚ)) (lo hi now : ℚ)
    (hlo : 0 ≤ lo) (hlohi : lo ≤ hi) :
    ∀ (n : Nat) (rng : Lcg) (q qr : List ScheduledEvent) (rngr : Lcg),
    scheduleRound pool lo hi now n rng q = .ok (qr, rngr) →
    ∀ se ∈ qr, se ∈ q ∨ now ≤ se.scheduledTime := by
  intro n
  induction n with
  | zero =>
    intro rng q qr rngr h se hse
    simp [scheduleRound] at h
    exact Or.inl (h.1 ▸ hse)
  | succ k ih =>
    intro rng q qr rngr h se hse
    cases pool with
    | nil =>
      simp [scheduleRound] at h
      exact Or.inl (h.1 ▸ hse)
    | cons p ps =>
      simp only [scheduleRound] at h
      cases hw : (Lcg.weightedChoice rng ((p :: ps).map Prod.fst)
          ((p :: ps).map Prod.snd)) with
      | error e => rw [hw] at h; exact absurd h (by simp)
      | ok pr =>
        obtain ⟨etype, rng1⟩ := pr
        rw [hw] at h
        simp only [] at h
        have := ih _ _ _ _ h se hse
        rcases this with hin | hge
        · rcases mem_heapPush _ _ _ hin with hq | hnew
          · exact Or.inl hq
          · right
            subst hnew
            have hb := (uniform_bounds rng1 lo hi hlohi).1
            show now ≤ now + (rng1.uniform lo hi).1
            linarith [le_trans hlo hb]
        · exact Or.inr hge

theorem scheduleAdditionalEvents_spec (cfg : OrchConfig) (rs rs1 : RunState)
    (h : scheduleAdditionalEvents cfg rs = .ok rs1) :
    rs1.orch.simTime = rs.orch.simTime ∧ rs1.emitted = rs.emitted
    ∧ rs1.eventCount = rs.eventCount ∧ rs1.activeScenarios = rs.activeScenarios
    ∧ (∀ se ∈ rs1.queue, se ∈ rs.queue ∨ rs.orch.simTime ≤ se.scheduledTime) := by
  cases hv : validPool cfg rs.orch.sm cfg.eventTypes with
  | error e => simp [scheduleAdditionalEvents, hv] at h
  | ok pool =>
    cases hr : scheduleRound pool 10 300 rs.orch.simTime 10 rs.orch.gst.rng rs.queue with
    | error e => simp [scheduleAdditionalEvents, hv, hr] at h
    | ok p =>
      obtain ⟨q, rng'⟩ := p
      simp only [scheduleAdditionalEvents, hv, hr] at h
      obtain rfl := by simpa using h
      refine ⟨rfl, rfl, rfl, rfl, ?_⟩
      exact scheduleRound_queue pool 10 300 rs.orch.simTime (by norm_num) (by norm_num)
        10 _ _ _ _ hr

theorem scheduleInitialEvents_spec (cfg : OrchConfig) (rs rs1 : RunState)
    (h : scheduleInitialEvents cfg rs = .ok rs1) :
    rs1.orch.simTime = rs.orch.simTime ∧ rs1.emitted = rs.emitted
    ∧ rs1.eventCount = rs.eventCount ∧ rs1.activeScenarios = rs.activeScenarios
    ∧ (∀ se ∈ rs1.queue, se ∈ rs.queue ∨ rs.orch.simTime ≤ se.scheduledTime) := by
  cases hr : scheduleRound (cfg.eventTypes.map (fun p => (p.1, p.2.frequencyWeight)))
      0 60 rs.orch.simTime 10 rs.orch.gst.rng rs.queue with
  | error e => simp [scheduleInitialEvents, hr] at h
  | ok p =>
    obtain ⟨q, rng'⟩ := p
    simp only [scheduleInitialEvents, hr] at h
    obtain rfl := by simpa using h
    refine ⟨rfl, rfl, rfl, rfl, ?_⟩
    exact scheduleRound_queue _ 0 60 rs.orch.simTime (by norm_num) (by norm_num) 10 _ _ _ _ hr

theorem scheduleScenarioStep_spec (cfg : OrchConfig) (sc : ScenarioInstance)
    (t : ℚ) (rng : Lcg) (q : List ScheduledEvent) (tok : Nat) :
    (scheduleScenarioStep cfg sc t rng q tok).1.currentStep ≤ sc.currentStep + 1
    ∧ ∀ se ∈ (scheduleScenarioStep cfg sc t rng q tok).2.2,
        se ∈ q ∨ t ≤ se.scheduledTime := by
  rcases hl : cfg.scenarios.lookup sc.scenarioName with _ | sd
  · simp only [scheduleScenarioStep, hl]
    exact ⟨Nat.le_succ _, fun se hse => Or.inl hse⟩
  · rcases hs : sd.steps with _ | steps
    · simp only [scheduleScenarioStep, hl, hs]
      exact ⟨Nat.le_succ _, fun se hse => Or.inl hse⟩
    · rcases hg : steps.get? sc.currentStep with _ | step
      · simp only [scheduleScenarioStep, hl, hs, hg]
        exact ⟨Nat.le_succ _, fun se hse => Or.inl hse⟩
      · simp only [scheduleScenarioStep, hl, hs, hg]
        refine ⟨le_refl _, ?_⟩
        intro se hse
        rcases mem_heapPush _ _ _ hse with hq | hnew
        · exact Or.inl hq
        · right
          rw [hnew]
          have hb := (uniform_bounds rng 5 30 (by norm_num)).1
          show t ≤ t + (rng.uniform 5 30).1
          linarith

theorem initScenarioRound_spec (cfg : OrchConfig) :
    ∀ (n : Nat) (rs rs1 : RunState),
    initScenarioRound cfg n rs = .ok rs1 →
    rs1.orch.simTime = rs.orch.simTime ∧ rs1.emitted = rs.emitted
    ∧ rs1.eventCount = rs.eventCount
    ∧ (∀ se ∈ rs1.queue, se ∈ rs.queue ∨ rs.orch.simTime ≤ se.scheduledTime)
    ∧ (∀ sc ∈ rs1.activeScenarios, sc ∈ rs.activeScenarios ∨ sc.currentStep ≤ 1) := by
  intro n
  induction n with
  | zero =>
    intro rs rs1 h
    simp only [initScenarioRound, Except.ok.injEq] at h
    subst h
    exact ⟨rfl, rfl, rfl, fun se hse => Or.inl hse, fun sc hsc => Or.inl hsc⟩
  | succ k ih =>
    intro rs rs1 h
    simp only [initScenarioRound] at h
    split at h
    · simp only [Except.ok.injEq] at h
      subst h
      exact ⟨rfl, rfl, rfl, fun se hse => Or.inl hse, fun sc hsc => Or.inl hsc⟩
    · split at h
      · exact absurd h (by simp)
      · split at h
        · obtain ⟨h1, h2, h3, h4, h5⟩ := ih _ _ h
          refine ⟨by simpa using h1, by simpa using h2, by simpa using h3, ?_, ?_⟩
          · intro se hse
            rcases h4 se hse with hin | hge
            · exact Or.inl (by simpa using hin)
            · exact Or.inr (by simpa using hge)
          · intro sc hsc
            rcases h5 sc hsc with hin | hle
            · exact Or.inl (by simpa using hin)
            · exact Or.inr hle
        · split at h
          · exact absurd h (by simp)
          · obtain ⟨h1, h2, h3, h4, h5⟩ := ih _ _ h
            refine ⟨by simpa using h1, by simpa using h2, by simpa using h3, ?_, ?_⟩
            · intro se hse
              rcases h4 se hse with hin | hge
              · exact Or.inl (by simpa using hin)
              · exact Or.inr (by simpa using hge)
            · intro sc hsc
              rcases h5 sc hsc with hin | hle
              · exact Or.inl (by simpa using hin)
              · exact Or.inr hle
          · obtain ⟨h1, h2, h3, h4, h5⟩ := ih _ _ h
            refine ⟨by simpa using h1, by simpa using h2, by simpa using h3, ?_, ?_⟩
            · intro se hse
              rcases h4 se hse with hin | hge
              · rcases (scheduleScenarioStep_spec _ _ _ _ _ _).2 se (by simpa using hin)
                  with hq | hge2
                · exact Or.inl hq
                · exact Or.inr hge2
              · exact Or.inr (by simpa using hge)
            · intro sc hsc
              rcases h5 sc hsc with hin | hle
              · have hin2 := hin
                simp at hin2
                rcases hin2 with ha | hb
                · exact Or.inl ha
                · right
                  rw [hb]
                  exact le_trans (scheduleScenarioStep_spec _ _ _ _ _ _).1 (by norm_num)
              · exact Or.inr hle

theorem processScenarios_spec (cfg : OrchConfig) (rs rs1 : RunState)
    (h : processScenarios cfg rs = .ok rs1) :
    rs1.orch.simTime = rs.orch.simTime ∧ rs1.emitted = rs.emitted
    ∧ rs1.eventCount = rs.eventCount
    ∧ (∀ se ∈ rs1.queue, se ∈ rs.queue ∨ rs.orch.simTime ≤ se.scheduledTime)
    ∧ ((∀ sc ∈ rs.activeScenarios, sc.currentStep ≤ 1) →
        ∀ sc ∈ rs1.activeScenarios, sc.currentStep ≤ 1) := by
  simp only [processScenarios] at h
  split at h
  · obtain ⟨h1, h2, h3, h4, h5⟩ := initScenarioRound_spec cfg 5 _ _ h
    refine ⟨by simpa using h1, by simpa using h2, by simpa using h3, ?_, ?_⟩
    · intro se hse
      rcases h4 se hse with hin | hge
      · exact Or.inl (by simpa using hin)
      · exact Or.inr (by simpa using hge)
    · intro hstep sc hsc
      rcases h5 sc hsc with hin | hle
      · exact hstep sc (List.mem_of_mem_filter hin)
      · exact hle
  · simp only [Except.ok.injEq] at h
    subst h
    refine ⟨rfl, rfl, rfl, fun se hse => Or.inl hse, ?_⟩
    intro hstep sc hsc
    exact hstep sc (List.mem_of_mem_filter hsc)

theorem generateEvent_ok_spec (cfg : OrchConfig) (o : Orch) (sev : ScheduledEvent)
    (r : Option EventRec) (o' : Orch)
    (h : generateEvent cfg o sev = .ok (r, o')) :
    o'.simTime = o.simTime ∧ ∀ ev, r = some ev → ev.timestamp = o.simTime := by
  simp only [generateEvent] at h
  repeat' split at h
  all_goals
    first
    | exact Except.noConfusion h
    | (simp only [Except.ok.injEq, Prod.mk.injEq] at h
       obtain ⟨rfl, rfl⟩ := h
       refine ⟨rfl, ?_⟩
       intro ev hev
       first
       | exact Option.noConfusion hev
       | (simp only [Option.some.injEq] at hev
          subst hev
          rfl))

theorem emittedMono_append (l : List EventRec) (ev : EventRec)
    (hm : List.Chain' (fun a b => a.timestamp ≤ b.timestamp) l)
    (hub : ∀ x ∈ l, x.timestamp ≤ ev.timestamp) :
    List.Chain' (fun a b => a.timestamp ≤ b.timestamp) (l ++ [ev]) := by
  rw [List.chain'_append]
  refine ⟨hm, List.chain'_singleton _, ?_⟩
  intro x hx y hy
  simp only [List.head?_cons, Option.mem_def, Option.some.injEq] at hy
  subst hy
  exact hub x (List.mem_of_mem_getLast? hx)

theorem procExt_inv (cfg : OrchConfig) (rs rsA : RunState)
    (hsim : rsA.orch.simTime = rs.orch.simTime) (hem : rsA.emitted = rs.emitted)
    (hcnt : rsA.eventCount = rs.eventCount)
    (hq : ∀ se ∈ rsA.queue, se ∈ rs.queue ∨ rs.orch.simTime ≤ se.scheduledTime)
    (hsc : (∀ sc ∈ rs.activeScenarios, sc.currentStep ≤ 1) →
        ∀ sc ∈ rsA.activeScenarios, sc.currentStep ≤ 1)
    (hinv : runInv cfg rs) : runInv cfg rsA := by
  obtain ⟨hql, hle, hmono, hlen, hdu, hto, hscen⟩ := hinv
  refine ⟨?_, ?_, ?_, ?_, ?_, ?_, hsc hscen⟩
  · intro se hse
    rw [hsim]
    rcases hq se hse with hin | hge
    · exact hql se hin
    · exact hge
  · intro ev hev
    rw [hsim]
    rw [hem] at hev
    exact hle ev hev
  · simp only [emittedMono, hem]
    exact hmono
  · rw [hcnt, hem]
    exact hlen
  · intro d hd ev hev
    rw [hem] at hev
    exact hdu d hd ev hev
  · intro n hn
    rw [hcnt]
    exact hto n hn

theorem replenishIf_inv (cfg : OrchConfig) (c : Prop) [Decidable c] (rs rsA : RunState)
    (h : (if c then scheduleAdditionalEvents cfg rs else Except.ok rs) = .ok rsA)
    (hinv : runInv cfg rs) :
    runInv cfg rsA ∧ rsA.orch.simTime = rs.orch.simTime ∧ rsA.emitted = rs.emitted
    ∧ rsA.eventCount = rs.eventCount ∧ rsA.activeScenarios = rs.activeScenarios := by
  by_cases hc : c
  · rw [if_pos hc] at h
    obtain ⟨h1, h2, h3, h4, h5⟩ := scheduleAdditionalEvents_spec cfg rs rsA h
    refine ⟨procExt_inv cfg rs rsA h1 h2 h3 h5 ?_ hinv, h1, h2, h3, h4⟩
    intro hstep sc hsc
    rw [h4] at hsc
    exact hstep sc hsc
  · rw [if_neg hc] at h
    simp only [Except.ok.injEq] at h
    subst h
    exact ⟨hinv, rfl, rfl, rfl, rfl⟩

theorem emit_step_none_inv (cfg : OrchConfig) (rsA : RunState) (sev : ScheduledEvent)
    (rest : List ScheduledEvent) (o' : Orch)
    (hinvA : runInv cfg rsA)
    (hpop : popMin rsA.queue = some (sev, rest))
    (hsimO : o'.simTime = sev.scheduledTime) :
    runInv cfg { rsA with queue := rest, orch := o' } := by
  obtain ⟨hql, hle, hmono, hlen, hdu, hto, hscen⟩ := hinvA
  obtain ⟨hsevq, hrestq, hmin⟩ := popMin_spec rsA.queue sev rest hpop
  have ht0 : rsA.orch.simTime ≤ sev.scheduledTime := hql sev hsevq
  refine ⟨?_, ?_, ?_, ?_, ?_, ?_, ?_⟩
  · intro se hse
    show o'.simTime ≤ se.scheduledTime
    rw [hsimO]
    exact hmin se (hrestq se hse)
  · intro ev hev
    show ev.timestamp ≤ o'.simTime
    rw [hsimO]
    exact le_trans (hle ev hev) ht0
  · exact hmono
  · exact hlen
  · intro d hd ev hev
    exact hdu d hd ev hev
  · intro n hn
    exact hto n hn
  · intro sc hsc
    exact hscen sc hsc

theorem emit_step_some_inv (cfg : OrchConfig) (rsA : RunState) (sev : ScheduledEvent)
    (rest : List ScheduledEvent) (o' : Orch) (ev : EventRec)
    (hinvA : runInv cfg rsA)
    (hpop : popMin rsA.queue = some (sev, rest))
    (hsimO : o'.simTime = sev.scheduledTime)
    (hts2 : ev.timestamp = sev.scheduledTime)
    (hdur : ∀ d, cfg.durationSeconds = some d →
        rsA.orch.simTime - cfg.startTime < d)
    (htot : ∀ n, cfg.totalEvents = some n → rsA.eventCount < n) :
    runInv cfg { rsA with
      queue := rest
      orch := o'
      emitted := rsA.emitted ++ [ev]
      eventCount := rsA.eventCount + 1 } := by
  obtain ⟨hql, hle, hmono, hlen, hdu, hto, hscen⟩ := hinvA
  obtain ⟨hsevq, hrestq, hmin⟩ := popMin_spec rsA.queue sev rest hpop
  have ht0 : rsA.orch.simTime ≤ sev.scheduledTime := hql sev hsevq
  refine ⟨?_, ?_, ?_, ?_, ?_, ?_, ?_⟩
  · intro se hse
    show o'.simTime ≤ se.scheduledTime
    rw [hsimO]
    exact hmin se (hrestq se hse)
  · intro evv hevv
    show evv.timestamp ≤ o'.simTime
    rw [hsimO]
    have hevv2 : evv ∈ rsA.emitted ++ [ev] := hevv
    rcases List.mem_append.mp hevv2 with hold | hnew
    · exact le_trans (hle evv hold) ht0
    · rw [List.mem_singleton.mp hnew, hts2]
  · show List.Chain' (fun a b => a.timestamp ≤ b.timestamp) (rsA.emitted ++ [ev])
    refine emittedMono_append _ _ hmono ?_
    intro x hx
    rw [hts2]
    exact le_trans (hle x hx) ht0
  · show rsA.eventCount + 1 = (rsA.emitted ++ [ev]).length
    simp [hlen]
  · intro d hd x hx
    have hx2 : x ∈ (rsA.emitted ++ [ev]).dropLast := hx
    rw [List.dropLast_concat] at hx2
    have h1 := hle x hx2
    have h2 := hdur d hd
    linarith
  · intro n hn
    show rsA.eventCount + 1 ≤ n
    exact htot n hn
  · intro sc hsc
    exact hscen sc hsc

theorem runInv_fresh (cfg : OrchConfig) (o : Orch) : runInv cfg ⟨o, [], [], [], 0⟩ := by
  refine ⟨?_, ?_, ?_, rfl, ?_, ?_, ?_⟩
  · intro se hse
    exact absurd hse (List.not_mem_nil se)
  · intro ev hev
    exact absurd hev (List.not_mem_nil ev)
  · exact List.chain'_nil
  · intro d hd ev hev
    exact absurd hev (by simp)
  · intro n hn
    exact Nat.zero_le n
  · intro sc hsc
    exact absurd hsc (List.not_mem_nil sc)

theorem initializeSim_inv (cfg : OrchConfig) (o0 : Orch) (rs0 : RunState)
    (h : initializeSim cfg o0 = .ok rs0) : runInv cfg rs0 := by
  simp only [initializeSim] at h
  split at h
  · exact absurd h (by simp)
  · rename_i o1 heqE
    split at h
    · exact absurd h (by simp)
    · rename_i rsI heqI
      obtain ⟨h1, h2, h3, h4, h5⟩ := scheduleInitialEvents_spec cfg _ rsI heqI
      have hinvI : runInv cfg rsI := by
        refine procExt_inv cfg _ rsI h1 h2 h3 h5 ?_ (runInv_fresh cfg o1)
        intro hstep sc hsc
        rw [h4] at hsc
        exact hstep sc hsc
      obtain ⟨g1, g2, g3, g4, g5⟩ := initScenarioRound_spec cfg 5 rsI rs0 h
      refine procExt_inv cfg rsI rs0 g1 g2 g3 g4 ?_ hinvI
      intro hstep sc hsc
      rcases g5 sc hsc with hin | hle
      · exact hstep sc hin
      · exact hle

theorem runLoop_inv (cfg : OrchConfig) :
    ∀ (fuel : Nat) (rs rs1 : RunState) (hr : HaltReason),
    runInv cfg rs → runLoop cfg fuel rs = .ok (rs1, hr) →
    runInv cfg rs1
    ∧ (hr = HaltReason.totalEventsReached →
        ∀ n, cfg.totalEvents = some n → rs1.eventCount = n) := by
  intro fuel
  induction fuel with
  | zero =>
    intro rs rs1 hr hinv h
    simp only [runLoop, Except.ok.injEq, Prod.mk.injEq] at h
    obtain ⟨rfl, rfl⟩ := h
    exact ⟨hinv, fun hc => absurd hc (by simp)⟩
  | succ k ih =>
    intro rs rs1 hr hinv h
    simp only [runLoop] at h
    split at h
    · simp only [Except.ok.injEq, Prod.mk.injEq] at h
      obtain ⟨rfl, rfl⟩ := h
      exact ⟨hinv, fun hc => absurd hc (by simp)⟩
    · rename_i hd
      split at h
      · rename_i ht
        simp only [Except.ok.injEq, Prod.mk.injEq] at h
        obtain ⟨rfl, rfl⟩ := h
        refine ⟨hinv, fun _ n hn => ?_⟩
        have hub := hinv.2.2.2.2.2.1 n hn
        simp only [totalHit, hn, ge_iff_le, decide_eq_true_eq] at ht
        omega
      · rename_i ht
        split at h
        · exact absurd h (by simp)
        · rename_i rsA heqA
          obtain ⟨hinvA, hsimA, hemA, hcntA, hactA⟩ :=
            replenishIf_inv cfg _ rs rsA heqA hinv
          have hdurA : ∀ d, cfg.durationSeconds = some d →
              rsA.orch.simTime - cfg.startTime < d := by
            intro d hdc
            rw [hsimA]
            simp only [durationHit, hdc, ge_iff_le, decide_eq_true_eq, not_le] at hd
            exact hd
          have htotA : ∀ n, cfg.totalEvents = some n → rsA.eventCount < n := by
            intro n hn
            rw [hcntA]
            simp only [totalHit, hn, ge_iff_le, decide_eq_true_eq, not_le] at ht
            exact ht
          split at h
          · simp only [Except.ok.injEq, Prod.mk.injEq] at h
            obtain ⟨rfl, rfl⟩ := h
            exact ⟨hinvA, fun hc => absurd hc (by simp)⟩
          · rename_i sev rest hpop
            split at h
            · exact absurd h (by simp)
            · rename_i optEv o' heqG
              obtain ⟨hsimO, htsO⟩ := generateEvent_ok_spec cfg _ sev optEv o' heqG
              have hsimO2 : o'.simTime = sev.scheduledTime := by simpa using hsimO
              have htsO2 : ∀ ev, optEv = some ev →
                  ev.timestamp = sev.scheduledTime := by
                intro ev he
                have := htsO ev he
                simpa using this
              cases optEv with
              | none =>
                have hinv3 := emit_step_none_inv cfg rsA sev rest o' hinvA hpop hsimO2
                split at h
                · exact absurd h (by simp)
                · rename_i rs4 heqP
                  obtain ⟨p1, p2, p3, p4, p5⟩ := processScenarios_spec cfg _ rs4 heqP
                  have hinv4 : runInv cfg rs4 :=
                    procExt_inv cfg _ rs4 p1 p2 p3 p4 p5 hinv3
                  split at h
                  · exact absurd h (by simp)
                  · rename_i rs5 heqR
                    exact ih rs5 rs1 hr (replenishIf_inv cfg _ rs4 rs5 heqR hinv4).1 h
              | some ev =>
                have hinv3 := emit_step_some_inv cfg rsA sev rest o' ev hinvA hpop
                  hsimO2 (htsO2 ev rfl) hdurA htotA
                split at h
                · exact absurd h (by simp)
                · rename_i rs4 heqP
                  obtain ⟨p1, p2, p3, p4, p5⟩ := processScenarios_spec cfg _ rs4 heqP
                  have hinv4 : runInv cfg rs4 :=
                    procExt_inv cfg _ rs4 p1 p2 p3 p4 p5 hinv3
                  split at h
                  · exact absurd h (by simp)
                  · rename_i rs5 heqR
                    exact ih rs5 rs1 hr (replenishIf_inv cfg _ rs4 rs5 heqR hinv4).1 h

/-- C3: over any initialized run of the main loop, consecutively emitted
events carry non-decreasing timestamps.  The clock is set by popping the
time-ordered queue, every push schedules at the current clock plus a
non-negative delay, and every emission stamps the current clock, so the
trace is monotone. -/
theorem c3_monotone_time (cfg : OrchConfig) (o0 : Orch) (rs0 rs1 : RunState)
    (fuel : Nat) (hr : HaltReason)
    (hinit : initializeSim cfg o0 = .ok rs0)
    (hrun : runLoop cfg fuel rs0 = .ok (rs1, hr)) :
    List.Chain' (fun a b => a.timestamp ≤ b.timestamp) rs1.emitted :=
  ((runLoop_inv cfg fuel rs0 rs1 hr (initializeSim_inv cfg o0 rs0 hinit) hrun).1).2.2.1

/-- C3 witness: the monotonicity theorem applied to the empty
configuration, whose one-iteration run exhausts the queue at once. -/
theorem c3_witness :
    List.Chain' (fun a b => a.timestamp ≤ b.timestamp) emptyRun.emitted :=
  c3_monotone_time emptyCfg emptyRun.orch emptyRun emptyRun 1
    HaltReason.queueExhausted rfl rfl

/-- C4 (amended): with `total_events = N` an initialized run emits at most
`N` events, and exactly `N` when it stops by the total-events condition;
with `duration = D` every emitted event except possibly the final one
satisfies `timestamp - start_time < D`.  The final event may overshoot the
duration, because the duration check precedes the pop that advances the
clock — the unamended claim fails on the counterexample below. -/
theorem c4_termination_amended (cfg : OrchConfig) (o0 : Orch) (rs0 rs1 : RunState)
    (fuel : Nat) (hr : HaltReason)
    (hinit : initializeSim cfg o0 = .ok rs0)
    (hrun : runLoop cfg fuel rs0 = .ok (rs1, hr)) :
    (∀ n, cfg.totalEvents = some n →
      rs1.emitted.length ≤ n
      ∧ (hr = HaltReason.totalEventsReached → rs1.emitted.length = n))
    ∧ (∀ d, cfg.durationSeconds = some d →
        ∀ ev ∈ rs1.emitted.dropLast, ev.timestamp - cfg.startTime < d) := by
  obtain ⟨hinv1, hexact⟩ :=
    runLoop_inv cfg fuel rs0 rs1 hr (initializeSim_inv cfg o0 rs0 hinit) hrun
  obtain ⟨hql, hle, hmono, hlen, hdu, hto, hscen⟩ := hinv1
  refine ⟨?_, hdu⟩
  intro n hn
  constructor
  · rw [← hlen]
    exact hto n hn
  · intro hhr
    rw [← hlen]
    exact hexact hhr n hn

/-- C4 witness: the amended termination theorem applied to the empty
configuration with `total_events = 0` — the run stops at once by the
total-events condition having emitted exactly zero events. -/
theorem c4_witness : emptyRun.emitted.length = 0 :=
  ((c4_termination_amended cfgTotal emptyRun.orch emptyRun emptyRun 1
      HaltReason.totalEventsReached rfl rfl).1 0 rfl).2 rfl

/-- C6: the claim says each scenario step after the first is scheduled
with a uniform `[5, 30]` delay, `current_step` advances on each
scheduling action and the instance completes at the last step.  In the
code `_schedule_scenario_step` is only ever called at initiation
(`_initialize_scenarios`), so over any initialized run every active
scenario instance still has `current_step ≤ 1`: a scenario with two or
more steps never has its later steps scheduled and is never marked
completed by step exhaustion. -/
theorem c6_second_step_never_scheduled (cfg : OrchConfig) (o0 : Orch)
    (rs0 rs1 : RunState) (fuel : Nat) (hr : HaltReason)
    (hinit : initializeSim cfg o0 = .ok rs0)
    (hrun : runLoop cfg fuel rs0 = .ok (rs1, hr)) :
    rs1.activeScenarios.all (fun sc => decide (sc.currentStep ≤ 1)) = true := by
  have hstep :=
    ((runLoop_inv cfg fuel rs0 rs1 hr (initializeSim_inv cfg o0 rs0 hinit)
      hrun).1).2.2.2.2.2.2
  simp only [List.all_eq_true, decide_eq_true_eq]
  exact hstep

/-- C6 witness: the step-bound theorem applied to the empty
configuration's one-iteration run. -/
theorem c6_witness :
    emptyRun.activeScenarios.all (fun sc => decide (sc.currentStep ≤ 1)) = true :=
  c6_second_step_never_scheduled emptyCfg emptyRun.orch emptyRun emptyRun 1
    HaltReason.queueExhausted rfl rfl

end Resinker
